import Mathlib

/-!
Shallow embedding of the CubaseTools `.cpr` decoding core
(`cubasetools/core/cpr_parser.py`, `cubasetools/core/models.py`,
`cubasetools/core/plugin_registry.py`, `cubasetools/core/constants.py`)
and proofs about the claims of its specification.

Modelling conventions:
- A byte buffer is a `List Nat` (each element a byte value).
- Python `float` values are modelled as `Rat`; IEEE-754 binary64 decoding is
  exact for finite values (NaN and infinity decode to `none` — the source only
  ever compares decoded doubles against finite ranges or zero, where NaN and
  the comparisons in question behave like a failed decode).
- Python dicts are insertion-ordered association lists; Python sets of strings
  are modelled as insertion-ordered duplicate-free lists.
- `re.finditer` is modelled by `scanMatches`: a left-to-right scan that emits
  non-overlapping matches and resumes after each match, exactly as the Python
  regex engine does; each individual regex is hand-translated into a matcher
  on the current suffix, with lazy bounded gaps tried shortest-first and
  greedy runs tried longest-first (backtracking), as in the source patterns.
-/

namespace Cpr

/-- Byte buffers: one `Nat` per byte. -/
abbrev Bytes := List Nat

/-- Match a list of byte predicates against the start of a buffer
(conjunction of per-position predicates, failing when the buffer is too
short). This is the primitive under every literal and class match. -/
def matchSeq : List (Nat → Bool) → Bytes → Bool
  | [], _ => true
  | _ :: _, [] => false
  | p :: ps, b :: bs => p b && matchSeq ps bs

/-- Predicates for a literal byte pattern. -/
def litP (pat : Bytes) : List (Nat → Bool) := pat.map (fun c => fun b => b == c)

/-- ASCII bytes of a string literal. -/
def ascii (s : String) : Bytes := s.data.map Char.toNat

/-- Bytes matched by the regex class of printable ASCII. -/
def isPrintableByte (b : Nat) : Bool := 32 ≤ b && b ≤ 126

/-- Bytes matched by the byte-regex class of word chars, dash, dot, space. -/
def isWordishByte (b : Nat) : Bool :=
  (48 ≤ b && b ≤ 57) || (65 ≤ b && b ≤ 90) || (97 ≤ b && b ≤ 122) ||
    b == 95 || b == 45 || b == 46 || b == 32

/-- Bytes matched by the byte-regex whitespace class. -/
def isSpaceByte (b : Nat) : Bool := b == 32 || (9 ≤ b && b ≤ 13)

/-- Fuelled worker for `scanMatches`; every step consumes at least one
byte, so any fuel of at least the buffer length is adequate (the recursion
is structural in the fuel so that the kernel can evaluate it). -/
def scanMatchesF {α : Type} (m : Bytes → Option (α × Nat)) : Nat → Nat → Bytes → List (Nat × α)
  | 0, _, _ => []
  | _ + 1, _, [] => []
  | fuel + 1, i, b :: bs =>
    match m (b :: bs) with
    | some (a, n) => (i, a) :: scanMatchesF m fuel (i + max n 1) (List.drop (max n 1 - 1) bs)
    | none => scanMatchesF m fuel (i + 1) bs

/-- Model of `re.finditer`: scan from the left; at each position run the
matcher on the current suffix; on a match of length `n`, emit the position
and resume after the match (never inside it). -/
def scanMatches {α : Type} (m : Bytes → Option (α × Nat)) (i : Nat) (data : Bytes) :
    List (Nat × α) :=
  scanMatchesF m (data.length + 1) i data

/-- Model of `bytes.find` starting at offset `i`: first matching position. -/
def findLitFrom (pat : Bytes) : Nat → Bytes → Option Nat
  | i, [] => if matchSeq (litP pat) [] then some i else none
  | i, b :: bs =>
    if matchSeq (litP pat) (b :: bs) then some i else findLitFrom pat (i + 1) bs

/-- Model of `bytes.find`: position of the first occurrence of a literal. -/
def findLit (pat s : Bytes) : Option Nat := findLitFrom pat 0 s

/-- Model of the Python `in` test on bytes. -/
def containsLit (pat s : Bytes) : Bool := (findLit pat s).isSome

/-- Length of the maximal prefix run satisfying a byte class (the greedy
first step of a `cls*` / `cls+` / bounded-repeat regex piece). -/
def runLen (cls : Nat → Bool) (s : Bytes) : Nat := (s.takeWhile cls).length

/-- First success of `f` on `0, 1, ..., n-1`: a lazy bounded regex gap
of at most `n - 1` filler bytes, tried shortest-first. -/
def firstGap {α : Type} (n : Nat) (f : Nat → Option α) : Option α :=
  (List.range n).findSome? f

/-- First success of `f` on `hi, hi - 1, ..., lo`: a greedy bounded run,
backtracked longest-first. -/
def greedyDown {α : Type} (lo hi : Nat) (f : Nat → Option α) : Option α :=
  (List.range (hi + 1 - lo)).findSome? (fun d => f (hi - d))

-- ── Data model (cubasetools/core/models.py) ──────────────────────────────

/-- Embedding of `models.TrackType`. -/
inductive TrackType
  | audio | instrument | midi | fx | group | vca | master | folder | unknown
deriving DecidableEq, Repr

/-- Embedding of `models.EQBandType`. -/
inductive EQBandType
  | lowCut | lowShelf | peak | highShelf | highCut | notch
deriving DecidableEq, Repr

/-- Embedding of `models.EQBand` with its dataclass defaults. -/
structure EQBand where
  enabled : Bool := true
  band_type : EQBandType := .peak
  frequency : Rat := 1000
  gain : Rat := 0
  q : Rat := 1
deriving DecidableEq, Repr

/-- Raw-parameter value: the source stores floats, except one line of
`_interpret_realworld` that stores a preset-name string under a
`type: ignore` marker; both shapes are represented. -/
inductive RawPVal
  | num (v : Rat)
  | str (s : String)
deriving DecidableEq, Repr

/-- Embedding of `models.CompressorSettings` with its dataclass defaults.
The `raw_parameters` dict is an insertion-ordered association list. -/
structure CompressorSettings where
  plugin_name : String := ""
  threshold : Rat := 0
  ratio : Rat := 1
  attack : Rat := 10
  release : Rat := 100
  knee : Rat := 0
  makeup_gain : Rat := 0
  input_gain : Rat := 0
  output_gain : Rat := 0
  raw_parameters : List (String × RawPVal) := []
deriving DecidableEq, Repr

/-- Embedding of `models.SendSlot`. The decoded raw volume (the 8-byte
big-endian double) is carried directly; the source additionally converts it
to decibels with `20*log10(vol/25856)` in float arithmetic, a strictly
monotone presentation transform on positive volumes that no decision in the
pipeline depends on and that has no exact rational form. -/
structure SendSlot where
  target_name : String := ""
  level_raw : Rat := 0
  enabled : Bool := true
deriving DecidableEq, Repr

/-- Embedding of `models.PluginInstance` with its dataclass defaults.
The `parameters` dict is an insertion-ordered association list. -/
structure PluginInstance where
  name : String := ""
  vendor : String := ""
  uid : String := ""
  slot_index : Nat := 0
  bypassed : Bool := false
  eq_bands : List EQBand := []
  compressor : Option CompressorSettings := none
  parameters : List (String × Rat) := []
  raw_chunk : Bytes := []
deriving DecidableEq, Repr

/-- Embedding of `models.Track` with its dataclass defaults. -/
structure Track where
  name : String := ""
  track_type : TrackType := .unknown
  index : Nat := 0
  volume : Rat := 0
  pan : Rat := 0
  muted : Bool := false
  solo : Bool := false
  color : String := ""
  plugins : List PluginInstance := []
  audio_files : List String := []
  output_bus : String := ""
  sends : List SendSlot := []
  has_content : Bool := false
deriving DecidableEq, Repr

/-- Embedding of `models.Marker`. -/
structure Marker where
  name : String := ""
  position : Rat := 0
  marker_id : Nat := 0
deriving DecidableEq, Repr

/-- Embedding of `models.CubaseProject` with its dataclass defaults.
`file_path` is reduced to the stem string the parser actually uses;
`referenced_audio` (a Python set of strings) is an insertion-ordered
duplicate-free list. -/
structure CubaseProject where
  project_name : String := ""
  cubase_version : String := ""
  sample_rate : Nat := 44100
  bit_depth : Nat := 24
  tempo : Rat := 120
  time_signature : String := "4/4"
  tracks : List Track := []
  markers : List Marker := []
  referenced_audio : List String := []
  file_size : Nat := 0
deriving DecidableEq, Repr

-- ── Dict / set primitives ────────────────────────────────────────────────

/-- Python dict assignment `d[k] = v`: update in place when the key exists
(keeping its position), append otherwise. -/
def dictSet {β : Type} (d : List (String × β)) (k : String) (v : β) : List (String × β) :=
  if d.any (fun e => e.1 == k) then
    d.map (fun e => if e.1 == k then (k, v) else e)
  else d ++ [(k, v)]

/-- Python dict assignment with a `Nat` key (the bus-UID table). -/
def dictSetNat {β : Type} (d : List (Nat × β)) (k : Nat) (v : β) : List (Nat × β) :=
  if d.any (fun e => e.1 == k) then
    d.map (fun e => if e.1 == k then (k, v) else e)
  else d ++ [(k, v)]

/-- Python set insertion for strings (insertion-ordered model). -/
def setAdd (s : List String) (x : String) : List String :=
  if s.contains x then s else s ++ [x]

-- ── String decoding (Python decode / str helpers) ────────────────────────

/-- Decoding with `errors="ignore"`: UTF-8 bytes to chars, skipping
ill-formed sequences (resynchronizing at the byte after the bad lead). -/
def utf8CharsF : Nat → Bytes → List Char
  | 0, _ => []
  | _ + 1, [] => []
  | fuel + 1, b :: rest =>
    if b < 128 then Char.ofNat b :: utf8CharsF fuel rest
    else if 194 ≤ b ∧ b ≤ 223 then
      match rest.take 1 with
      | [c1] =>
        if 128 ≤ c1 ∧ c1 ≤ 191 then
          Char.ofNat ((b - 192) * 64 + (c1 - 128)) :: utf8CharsF fuel (rest.drop 1)
        else utf8CharsF fuel rest
      | _ => []
    else if 224 ≤ b ∧ b ≤ 239 then
      match rest.take 2 with
      | [c1, c2] =>
        if ((b = 224 ∧ 160 ≤ c1) ∨ (b = 237 ∧ c1 ≤ 159) ∨ (b ≠ 224 ∧ b ≠ 237)) ∧
            (128 ≤ c1 ∧ c1 ≤ 191) ∧ (128 ≤ c2 ∧ c2 ≤ 191) then
          Char.ofNat ((b - 224) * 4096 + (c1 - 128) * 64 + (c2 - 128)) :: utf8CharsF fuel (rest.drop 2)
        else utf8CharsF fuel rest
      | _ => []
    else if 240 ≤ b ∧ b ≤ 244 then
      match rest.take 3 with
      | [c1, c2, c3] =>
        if ((b = 240 ∧ 144 ≤ c1) ∨ (b = 244 ∧ c1 ≤ 143) ∨ (b ≠ 240 ∧ b ≠ 244)) ∧
            (128 ≤ c1 ∧ c1 ≤ 191) ∧ (128 ≤ c2 ∧ c2 ≤ 191) ∧ (128 ≤ c3 ∧ c3 ≤ 191) then
          Char.ofNat ((b - 240) * 262144 + (c1 - 128) * 4096 + (c2 - 128) * 64 + (c3 - 128))
            :: utf8CharsF fuel (rest.drop 3)
        else utf8CharsF fuel rest
      | _ => []
    else utf8CharsF fuel rest

/-- Model of `bytes.decode("utf-8", errors="ignore")` (the fuel is adequate
because every step of the worker consumes at least one byte). -/
def decodeUtf8 (s : Bytes) : String := String.mk (utf8CharsF s.length s)

/-- Decoding with `errors="ignore"`: UTF-16LE bytes to chars, skipping lone
surrogates and a trailing odd byte. -/
def utf16leCharsF : Nat → Bytes → List Char
  | 0, _ => []
  | fuel + 1, b0 :: b1 :: rest =>
    let u := b0 + 256 * b1
    if u < 55296 ∨ 57344 ≤ u then Char.ofNat u :: utf16leCharsF fuel rest
    else if u ≤ 56319 then
      match rest.take 2 with
      | [c0, c1] =>
        let v := c0 + 256 * c1
        if 56320 ≤ v ∧ v ≤ 57343 then
          Char.ofNat (65536 + (u - 55296) * 1024 + (v - 56320)) :: utf16leCharsF fuel (rest.drop 2)
        else utf16leCharsF fuel rest
      | _ => []
    else utf16leCharsF fuel rest
  | _ + 1, _ => []

/-- Model of `bytes.decode("utf-16-le", errors="ignore")` (fuel adequate as
every worker step consumes at least two bytes). -/
def decodeUtf16le (s : Bytes) : String := String.mk (utf16leCharsF s.length s)

/-- Model of `bytes.decode("latin-1")` (used for IDString values, which are
printable ASCII by construction). -/
def decodeLatin1 (s : Bytes) : String := String.mk (s.map Char.ofNat)

/-- Whitespace trim on both ends of a char list. -/
def trimChars (cs : List Char) : List Char :=
  ((cs.dropWhile Char.isWhitespace).reverse.dropWhile Char.isWhitespace).reverse

/-- Model of Python `str.strip()` (whitespace trim; over the ASCII data of
this pipeline it agrees with the Unicode semantics of the source). -/
def pyStrip (s : String) : String := String.mk (trimChars s.data)

/-- Model of Python `str.lower()` (ASCII case folding; the names this
pipeline compares are ASCII). -/
def strToLower (s : String) : String := String.mk (s.data.map Char.toLower)

/-- Model of Python `str.startswith`. -/
def strStartsWith (s pre : String) : Bool := pre.data.isPrefixOf s.data

/-- Model of Python `str.endswith`. -/
def strEndsWith (s suf : String) : Bool := suf.data.reverse.isPrefixOf s.data.reverse

/-- Fuelled worker for `strReplaceAll`: left-to-right, non-overlapping
(every step consumes at least one char, so fuel = length is adequate). -/
def replCharsF (pat repl : List Char) : Nat → List Char → List Char
  | 0, _ => []
  | _ + 1, [] => []
  | fuel + 1, c :: rest =>
    if !pat.isEmpty && pat.isPrefixOf (c :: rest) then
      repl ++ replCharsF pat repl fuel (List.drop (pat.length - 1) rest)
    else c :: replCharsF pat repl fuel rest

/-- Model of Python `str.replace(pat, repl)` (all occurrences). -/
def strReplaceAll (s pat repl : String) : String :=
  String.mk (replCharsF pat.data repl.data s.data.length s.data)

/-- Worker for `strContains`. -/
def charsContain (pat : List Char) : List Char → Bool
  | [] => pat.isEmpty
  | c :: rest => pat.isPrefixOf (c :: rest) || charsContain pat rest

/-- Membership of a substring (Python `sub in s` on `str`). -/
def strContains (s sub : String) : Bool := charsContain sub.data s.data

/-- Model of Python `any(c.isalpha() for c in s)` (names in this pipeline
are ASCII; `Char.isAlpha` agrees with `str.isalpha` there). -/
def anyAlpha (s : String) : Bool := s.data.any Char.isAlpha

-- ── Numeric decoding (struct.unpack / float()) ───────────────────────────

/-- Model of `struct.unpack(">I", ...)` on exactly 4 bytes; `none` mirrors
`struct.error` on a short read. -/
def decodeU32BE : Bytes → Option Nat
  | [a, b, c, d] => some (((a * 256 + b) * 256 + c) * 256 + d)
  | _ => none

/-- Little-endian 4-byte encoding of a 32-bit value (`struct.pack("<I", n)`). -/
def u32LE (n : Nat) : Bytes :=
  [n % 256, n / 256 % 256, n / 65536 % 256, n / 16777216 % 256]

/-- Big-endian 4-byte encoding of a 32-bit value (`struct.pack(">I", n)`). -/
def u32BE (n : Nat) : Bytes :=
  [n / 16777216 % 256, n / 65536 % 256, n / 256 % 256, n % 256]

/-- Exact value of an IEEE-754 binary64 from its 64-bit integer image; NaN
and infinities yield `none` (see the file header note). -/
def f64OfBits (bits : Nat) : Option Rat :=
  let sign : Rat := if (bits / 2 ^ 63) % 2 == 1 then -1 else 1
  let expo : Nat := (bits / 2 ^ 52) % 2 ^ 11
  let mant : Nat := bits % 2 ^ 52
  if expo == 2047 then none
  else if expo == 0 then some (sign * (mant : Rat) / ((2 : Rat) ^ (1074 : Nat)))
  else some (sign * ((2 ^ 52 + mant : Nat) : Rat) * ((2 : Rat) ^ expo) / ((2 : Rat) ^ (1075 : Nat)))

/-- Model of `struct.unpack("<d", ...)` on exactly 8 bytes. -/
def decodeF64LE (s : Bytes) : Option Rat :=
  match s with
  | [a, b, c, d, e, f, g, h] =>
    f64OfBits (a + 256 * (b + 256 * (c + 256 * (d + 256 * (e + 256 * (f + 256 * (g + 256 * h)))))))
  | _ => none

/-- Model of `struct.unpack(">d", ...)` on exactly 8 bytes. -/
def decodeF64BE (s : Bytes) : Option Rat :=
  match s with
  | [a, b, c, d, e, f, g, h] =>
    f64OfBits (h + 256 * (g + 256 * (f + 256 * (e + 256 * (d + 256 * (c + 256 * (b + 256 * a)))))))
  | _ => none

/-- Digits of a char list while they last. -/
def digitsVal : List Char → Nat → Nat
  | [], acc => acc
  | c :: rest, acc =>
    if c.isDigit then digitsVal rest (acc * 10 + (c.toNat - 48)) else acc

/-- One digit group of the Python float grammar after its first digit:
`(["_"] digit)*`, a single underscore allowed strictly between digits.
Returns the accumulated value, the digit count so far and the unconsumed
rest. -/
def digitPartGo (acc : Nat) (n : Nat) : List Char → Nat × Nat × List Char
  | '_' :: d :: rest =>
    if d.isDigit then digitPartGo (acc * 10 + (d.toNat - 48)) (n + 1) rest
    else (acc, n, '_' :: d :: rest)
  | d :: rest =>
    if d.isDigit then digitPartGo (acc * 10 + (d.toNat - 48)) (n + 1) rest
    else (acc, n, d :: rest)
  | [] => (acc, n, [])

/-- A `digitpart` of the Python float grammar, `digit (["_"] digit)*`;
`none` when the text does not start with a digit. -/
def digitPart : List Char → Option (Nat × Nat × List Char)
  | c :: rest => if c.isDigit then some (digitPartGo (c.toNat - 48) 1 rest) else none
  | [] => none

/-- Model of Python `float(token)`: surrounding whitespace stripped, an
optional sign, then `inf`, `infinity` or `nan` case-insensitively, or a
decimal `digitpart [. [digitpart]] | . digitpart` with an optional
`eE [+-] digitpart` exponent (underscores between digits as in Python).
The outer `none` mirrors `ValueError`; `some none` is a successful parse
to a non-finite float (NaN or a signed infinity), the same Option Rat
convention the binary64 decoders above use; `some (some q)` is the exact
decimal value (Python rounds it to the nearest binary64; no comparison in
this pipeline is decided inside that gap for the inputs the theorems
below use). -/
def parseFloat? (s : String) : Option (Option Rat) :=
  let cs0 := (pyStrip s).data
  let sgnNeg := cs0.head? == some '-'
  let cs := if cs0.head? == some '-' || cs0.head? == some '+' then cs0.tail else cs0
  let lower := cs.map Char.toLower
  if lower == "inf".data || lower == "infinity".data || lower == "nan".data then
    some none
  else
    let ipRes := digitPart cs
    let ipv := match ipRes with | some r => r.1 | none => 0
    let rest1 := match ipRes with | some r => r.2.2 | none => cs
    let hasDot := rest1.head? == some '.'
    let afterDot := rest1.tail
    let fpRes := if hasDot then digitPart afterDot else none
    let fpv := match fpRes with | some r => r.1 | none => 0
    let fpn := match fpRes with | some r => r.2.1 | none => 0
    let rest2 := match fpRes with
      | some r => r.2.2
      | none => if hasDot then afterDot else rest1
    if ipRes.isNone && fpRes.isNone then none
    else
      let mant : Rat := (ipv : Rat) + (fpv : Rat) / (10 ^ fpn)
      let signed := if sgnNeg then -mant else mant
      match rest2 with
      | [] => some (some signed)
      | e :: rest3 =>
        if e == 'e' || e == 'E' then
          let eNeg := rest3.head? == some '-'
          let rest4 := if rest3.head? == some '-' || rest3.head? == some '+' then rest3.tail else rest3
          match digitPart rest4 with
          | some er =>
            if er.2.2 ≠ [] then none
            else some (some (if eNeg then signed / 10 ^ er.1 else signed * 10 ^ er.1))
          | none => none
        else none

/-- Indexed map with an explicit start index (structural recursion, used
where the source assigns running indices). -/
def mapIdxGo {α β : Type} (f : Nat → α → β) : Nat → List α → List β
  | _, [] => []
  | i, x :: xs => f i x :: mapIdxGo f (i + 1) xs

-- ── Constants (cubasetools/core/constants.py) ────────────────────────────

/-- Embedding of `constants.VERSION_MARKERS`, in source order. -/
def VERSION_MARKERS : List Bytes :=
  [ascii "Cubase 15", ascii "Cubase 14", ascii "Cubase 13",
   ascii "Cubase 12", ascii "Cubase 11", ascii "Cubase 10"]

/-- Embedding of `constants.TRACK_MARKERS`, in source (dict insertion) order. -/
def TRACK_MARKERS : List (Bytes × String) :=
  [(ascii "MAudioTrackEvent", "audio"),
   (ascii "MInstrumentTrackEvent", "instrument"),
   (ascii "MMidiTrackEvent", "midi"),
   (ascii "MFXChannelTrackEvent", "fx"),
   (ascii "MGroupChannelTrackEvent", "group"),
   (ascii "MVCATrackEvent", "vca"),
   (ascii "MMixerTrackEvent", "master"),
   (ascii "MFolderTrackEvent", "folder"),
   (ascii "MMarkerTrackEvent", "unknown"),
   (ascii "MSamplerTrackEvent", "instrument")]

/-- Embedding of `TrackType(value)` on the marker value strings (a value
outside the enum would raise `ValueError`, which the source catches and
turns into `UNKNOWN`). -/
def trackTypeOfValue (s : String) : TrackType :=
  if s == "audio" then .audio
  else if s == "instrument" then .instrument
  else if s == "midi" then .midi
  else if s == "fx" then .fx
  else if s == "group" then .group
  else if s == "vca" then .vca
  else if s == "master" then .master
  else if s == "folder" then .folder
  else if s == "unknown" then .unknown
  else .unknown

/-- Embedding of `cpr_parser._BUILTIN_PLUGINS`. -/
def BUILTIN_PLUGINS : List String :=
  ["Standard Panner", "Stereo Combined Panner", "Input Filter", "EQ",
   "Mono Panner", "Surround Panner", "Sampler Track"]

-- ── Metadata extraction (CprParser._extract_version / _sample_rate / _tempo) ──

/-- Loop body of `CprParser._extract_version`: first marker hit with a NUL
terminator within 50 bytes wins; otherwise try the next marker. -/
def extractVersionGo (data : Bytes) : List Bytes → String
  | [] => ""
  | marker :: rest =>
    match findLit marker data with
    | none => extractVersionGo data rest
    | some pos =>
      match findLit [0] (data.drop pos) with
      | some relEnd =>
        if relEnd < 50 then decodeUtf8 ((data.drop pos).take relEnd)
        else extractVersionGo data rest
      | none => extractVersionGo data rest

/-- Embedding of `CprParser._extract_version` (result field; default ""). -/
def extractVersion (data : Bytes) : String := extractVersionGo data VERSION_MARKERS

/-- Known sample rates, as in `_extract_sample_rate`. -/
def KNOWN_RATES : List Nat := [44100, 48000, 88200, 96000, 176400, 192000]

/-- Sample-rate marker literals, in source order. -/
def SR_MARKERS : List Bytes :=
  [ascii "SampleRate", ascii "Record Format", ascii "SRateForAudioIO"]

/-- Inner loop of `_extract_sample_rate`: first known rate whose 4-byte
little- or big-endian encoding occurs in the 100-byte window. -/
def findRateIn (region : Bytes) : List Nat → Option Nat
  | [] => none
  | r :: rest =>
    if containsLit (u32LE r) region || containsLit (u32BE r) region then some r
    else findRateIn region rest

/-- Loop body of `CprParser._extract_sample_rate` (default 44100). -/
def extractSampleRateGo (data : Bytes) : List Bytes → Nat
  | [] => 44100
  | marker :: rest =>
    match findLit marker data with
    | none => extractSampleRateGo data rest
    | some pos =>
      match findRateIn ((data.drop pos).take 100) KNOWN_RATES with
      | some r => r
      | none => extractSampleRateGo data rest

/-- Embedding of `CprParser._extract_sample_rate` (result field). -/
def extractSampleRate (data : Bytes) : Nat := extractSampleRateGo data SR_MARKERS

/-- Round-half-to-even on rationals, the semantics of Python `round` (the
source rounds the decoded double to 2 decimals; Python re-rounds the result
to binary64, a float-representation step that is not modelled). -/
def roundHalfEven (x : Rat) : Int :=
  let f : Int := Rat.floor x
  let frac := x - (f : Rat)
  if frac < 1 / 2 then f
  else if 1 / 2 < frac then f + 1
  else if f % 2 == 0 then f else f + 1

/-- Model of `round(x, 2)`. -/
def roundTo2 (x : Rat) : Rat := ((roundHalfEven (x * 100) : Int) : Rat) / 100

/-- Tempo marker literals, in source order. -/
def TEMPO_MARKERS : List Bytes := [ascii "TempoEvent", ascii "MTempoTrackEvent"]

/-- Inner loop of `_extract_tempo`: decode a little-endian double at each
4-aligned offset of the 200-byte window; first value in (30, 300) wins,
rounded to 2 decimals. A failed decode (`struct.error`) is skipped. -/
def tempoScan (region : Bytes) : List Nat → Option Rat
  | [] => none
  | off :: rest =>
    match decodeF64LE ((region.drop off).take 8) with
    | some v => if 30 < v ∧ v < 300 then some (roundTo2 v) else tempoScan region rest
    | none => tempoScan region rest

/-- Offsets `range(0, len(region) - 8, 4)` of the tempo scan. -/
def tempoOffsets (regionLen : Nat) : List Nat :=
  (List.range ((regionLen - 8 + 3) / 4)).map (fun k => k * 4)

/-- Loop body of `CprParser._extract_tempo` (default 120.0). -/
def extractTempoGo (data : Bytes) : List Bytes → Rat
  | [] => 120
  | marker :: rest =>
    match findLit marker data with
    | none => extractTempoGo data rest
    | some pos =>
      let region := (data.drop pos).take 200
      match tempoScan region (tempoOffsets region.length) with
      | some t => t
      | none => extractTempoGo data rest

/-- Embedding of `CprParser._extract_tempo` (result field). -/
def extractTempo (data : Bytes) : Rat := extractTempoGo data TEMPO_MARKERS

-- ── Channel strips (CprParser._extract_channel_strips) ───────────────────

/-- The literal `Name\x00`. -/
def nameTag : Bytes := ascii "Name" ++ [0]

/-- The literal `String\x00`. -/
def stringTag : Bytes := ascii "String" ++ [0]

/-- The literal `Type\x00`. -/
def typeTag : Bytes := ascii "Type" ++ [0]

/-- The literal `InputFilter`. -/
def inputFilterLit : Bytes := ascii "InputFilter"

/-- Matcher for the strip regex
`Name\x00.\x7b0,20\x7d?String\x00.\x7b0,10\x7d?([\x20-\x7e]\x7b2,50\x7d)\x00.\x7b0,30\x7d?Type\x00.\x7b0,20\x7d?InputFilter`
(DOTALL). Lazy gaps are tried shortest-first with full backtracking into
the rest of the pattern. The greedy capture run is forced: every byte
shorter than the maximal printable run is printable and hence not the
required NUL, so only the maximal run (capped at 50) can be followed by
`\x00`. Payload: captured name bytes; second component: match length. -/
def stripMatcher (s : Bytes) : Option (Bytes × Nat) :=
  if matchSeq (litP nameTag) s then
    firstGap 21 (fun g1 =>
      let s1 := s.drop (5 + g1)
      if matchSeq (litP stringTag) s1 then
        firstGap 11 (fun g2 =>
          let s2 := s1.drop (7 + g2)
          let r := min (runLen isPrintableByte s2) 50
          if 2 ≤ r && s2.getD r 999 == 0 then
            let s3 := s2.drop (r + 1)
            firstGap 31 (fun g3 =>
              let s4 := s3.drop g3
              if matchSeq (litP typeTag) s4 then
                firstGap 21 (fun g4 =>
                  let s5 := s4.drop (5 + g4)
                  if matchSeq (litP inputFilterLit) s5 then
                    some (s2.take r, 5 + g1 + 7 + g2 + r + 1 + g3 + 5 + g4 + 11)
                  else none)
              else none)
          else none)
      else none)
  else none

/-- Embedding of `CprParser._extract_channel_strips`: each match yields a
`Track` with only the name set, paired with the match offset; names that
strip to fewer than 2 chars are skipped. -/
def extractChannelStrips (data : Bytes) : List (Track × Nat) :=
  (scanMatches stripMatcher 0 data).filterMap (fun pa =>
    let nm := pyStrip (decodeUtf8 pa.2)
    if nm == "" || nm.length < 2 then none
    else some (({ name := nm } : Track), pa.1))

-- ── Strip dedup / IO filter (._deduplicate_strips / ._filter_io_section) ──

/-- Stable insertion into a position-sorted list (model of the stable
Python `sort(key=lambda x: x[1])`): an element goes before entries with an
equal key that were originally later. -/
def insertByPos {α : Type} (x : α × Nat) : List (α × Nat) → List (α × Nat)
  | [] => [x]
  | y :: ys => if y.2 < x.2 then y :: insertByPos x ys else x :: y :: ys

/-- Stable sort by position. -/
def sortByPos {α : Type} : List (α × Nat) → List (α × Nat)
  | [] => []
  | x :: xs => insertByPos x (sortByPos xs)

/-- Loop of `_deduplicate_strips` over position-sorted strips, carrying the
`seen` name→last-kept-position dict: a strip whose name was kept less than
40000 bytes earlier is dropped (and `seen` not updated). -/
def dedupStripsGo : List (Track × Nat) → List (String × Nat) → List (Track × Nat)
  | [], _ => []
  | tp :: rest, seen =>
    match List.lookup tp.1.name seen with
    | some prev =>
      if tp.2 - prev < 40000 then dedupStripsGo rest seen
      else tp :: dedupStripsGo rest (dictSet seen tp.1.name tp.2)
    | none => tp :: dedupStripsGo rest (dictSet seen tp.1.name tp.2)

/-- Embedding of `CprParser._deduplicate_strips`. -/
def dedupStrips (strips : List (Track × Nat)) : List (Track × Nat) :=
  dedupStripsGo (sortByPos strips) []

/-- Index just after the first >1MB gap between consecutive strips
(`io_start` in `_filter_io_section`). -/
def firstGapIdx : List (Track × Nat) → Nat → Option Nat
  | a :: b :: rest, i =>
    if b.2 - a.2 > 1000000 then some (i + 1) else firstGapIdx (b :: rest) (i + 1)
  | _, _ => none

/-- The master-bus names recognised (lower-cased) throughout the parser. -/
def masterNames : List String := ["stereo out", "master", "main out"]

/-- Embedding of `CprParser._filter_io_section`. -/
def filterIoSection (strips : List (Track × Nat)) : List (Track × Nat) :=
  if strips.length < 2 then strips
  else
    match firstGapIdx strips 0 with
    | none => strips
    | some ioStart =>
      strips.take ioStart ++
        (strips.drop ioStart).filter (fun tp => masterNames.contains (strToLower tp.1.name))

-- ── IDString classification (._find_channel_idstrings / ._classify_by_idstring) ──

/-- The literal `IDString\x00`. -/
def idStringTag : Bytes := ascii "IDString" ++ [0]

/-- Known channel-type IDString prefixes, in source order. -/
def KNOWN_ID_PREFIXES : List Bytes :=
  [ascii "GroupChannel", ascii "FxChannel", ascii "Audio",
   ascii "SamplerChannel", ascii "Synth", ascii "MidiChannel",
   ascii "InputChannel", ascii "OutputChannel"]

/-- Matcher for an `IDString\x00` hit; the payload applies
`re.match` of `.\x7b0,8\x7d?([\x20-\x7e]\x7b3,40\x7d)` to the following
51-byte window (the greedy run has no trailing constraint, so the maximal
run at the shortest viable gap is captured). -/
def idStringMatcher (s : Bytes) : Option (Option Bytes × Nat) :=
  if matchSeq (litP idStringTag) s then
    let after := (s.drop 9).take 51
    let cap := firstGap 9 (fun g =>
      let t := after.drop g
      let r := min (runLen isPrintableByte t) 40
      if 3 ≤ r then some (t.take r) else none)
    some (cap, 9)
  else none

/-- Embedding of `CprParser._find_channel_idstrings` (the final
`results.sort()` is the identity here because scan positions are already
strictly increasing). -/
def findChannelIdstrings (data : Bytes) : List (Nat × String) :=
  (scanMatches idStringMatcher 0 data).filterMap (fun pc =>
    match pc.2 with
    | some val =>
      if KNOWN_ID_PREFIXES.any (fun p => p.isPrefixOf val) then
        some (pc.1, decodeLatin1 val)
      else none
    | none => none)

/-- Remaining IDStrings once those at or before position `p` are consumed
(the monotone `id_idx` advance of step 1 of `_classify_by_idstring`). -/
def idsAfter (p : Nat) (ids : List (Nat × String)) : List (Nat × String) :=
  ids.dropWhile (fun iv => iv.1 ≤ p)

/-- Step 1 of `_classify_by_idstring`: walking position-sorted strips, map
each strip position to the first IDString after it and before the next
strip, consuming IDStrings monotonically. -/
def assignIdsGo : List (Track × Nat) → List (Nat × String) → List (Nat × String)
  | [], _ => []
  | sp :: rest, ids =>
    let ids1 := idsAfter sp.2 ids
    match ids1.head? with
    | some iv =>
      let ok : Bool := match rest.head? with
        | some nxt => decide (iv.1 < nxt.2)
        | none => true
      if ok then (sp.2, iv.2) :: assignIdsGo rest ids1
      else assignIdsGo rest ids1
    | none => assignIdsGo rest ids1

/-- Nearest mapped strip type in a direction (steps of the neighbour
inference). -/
def firstMapped (m : List (Nat × String)) : List (Track × Nat) → Option String
  | [] => none
  | sp :: rest =>
    match List.lookup sp.2 m with
    | some v => some v
    | none => firstMapped m rest

/-- Step 2 of `_classify_by_idstring`: fill unmapped strips from the next
mapped strip forward, else the previous one backward, walking left to right
over the evolving map (exactly as the source mutates `strip_type_map`
during its loop). `prevRev` is the already-visited prefix, nearest first. -/
def fillNeighbors : List (Track × Nat) → List (Track × Nat) → List (Nat × String) → List (Nat × String)
  | _, [], m => m
  | prevRev, sp :: rest, m =>
    match List.lookup sp.2 m with
    | some _ => fillNeighbors (sp :: prevRev) rest m
    | none =>
      let m1 := match firstMapped m rest with
        | some v => dictSetNat m sp.2 v
        | none =>
          match firstMapped m prevRev with
          | some v => dictSetNat m sp.2 v
          | none => m
      fillNeighbors (sp :: prevRev) rest m1

/-- The group-name catalog of `_classify_track_type`. -/
def GROUP_NAMES : List String :=
  ["drums", "bass", "keys", "gitarre", "guitar", "guitars",
   "vocals", "vox", "sinti", "strings", "synths", "pads",
   "samples", "percussion", "perc", "horns", "brass",
   "woodwinds", "fx", "effects", "master"]

/-- Model of `re.match(r"^mono in \d+$", lower)`. -/
def isMonoInNum (lower : String) : Bool :=
  strStartsWith lower "mono in " &&
    (let rest := lower.data.drop 8
     !rest.isEmpty && rest.all Char.isDigit)

/-- Embedding of the helper `_classify_track_type` (name heuristics). -/
def classifyTrackType (name : String) (hasPlugins : Bool) : TrackType :=
  let lower := strToLower name
  if masterNames.contains lower then .master
  else if lower == "stereo in" || lower == "mono in" || isMonoInNum lower then .audio
  else if strStartsWith lower "group" || strStartsWith lower "groupchannel" then .group
  else if ["grp", "gruppe", "bus", " ny"].any (fun kw => strContains lower kw) then .group
  else if strEndsWith lower " vocal" || strEndsWith lower " vocals" then .group
  else if ["hall", "verb", "delay", "flanger", "chorus", "fx ", "breit",
      "parallel"].any (fun kw => strContains lower kw) then .fx
  else if ["kontakt", "omnisphere", "diva", "retrologue", "beep",
      "omnivocal"].any (fun kw => strContains lower kw) then .instrument
  else if !hasPlugins && !(strContains name " ") && lower != "stereo out" &&
      GROUP_NAMES.contains lower then .group
  else .audio

/-- Step 3 of `_classify_by_idstring` for one strip: the master special
case first, then the IDString prefix dispatch, then the name fallback. -/
def classifyStrip (m : List (Nat × String)) (tp : Track × Nat) : Track × Nat :=
  if masterNames.contains (strToLower tp.1.name) then
    ({ tp.1 with track_type := .master }, tp.2)
  else
    let idVal := (List.lookup tp.2 m).getD ""
    if strStartsWith idVal "GroupChannel" then ({ tp.1 with track_type := .group }, tp.2)
    else if strStartsWith idVal "FxChannel" then ({ tp.1 with track_type := .fx }, tp.2)
    else if strStartsWith idVal "SamplerChannel" || strStartsWith idVal "Synth" then
      ({ tp.1 with track_type := .instrument }, tp.2)
    else if strStartsWith idVal "OutputChannel" then ({ tp.1 with track_type := .master }, tp.2)
    else if strStartsWith idVal "MidiChannel" then ({ tp.1 with track_type := .midi }, tp.2)
    else if strStartsWith idVal "Audio" then ({ tp.1 with track_type := .audio }, tp.2)
    else ({ tp.1 with track_type := classifyTrackType tp.1.name true }, tp.2)

/-- Embedding of `CprParser._classify_by_idstring` (returns the strips with
their track types set; the source mutates the `Track` objects in place). -/
def classifyByIdstring (ids : List (Nat × String)) (strips : List (Track × Nat)) :
    List (Track × Nat) :=
  if ids.isEmpty then
    strips.map (fun tp => ({ tp.1 with track_type := classifyTrackType tp.1.name true }, tp.2))
  else
    let sorted := sortByPos strips
    let m1 := assignIdsGo sorted ids
    let m2 := fillNeighbors [] sorted m1
    strips.map (classifyStrip m2)

-- ── Legacy tracks (._extract_legacy_tracks / ._extract_nearby_string) ────

/-- Matcher that recognises a single literal and nothing more. -/
def litMatcher (pat : Bytes) (s : Bytes) : Option (Unit × Nat) :=
  if matchSeq (litP pat) s then some ((), pat.length) else none

/-- All (non-overlapping) occurrence positions of a literal, in order. -/
def litPositions (pat : Bytes) (data : Bytes) : List Nat :=
  (scanMatches (litMatcher pat) 0 data).map Prod.fst

/-- Leading run of UTF-16LE-looking pairs: a non-control byte followed by a
NUL (the `(?:[^\x00\x01-\x1f]\x00)` piece). -/
def widePairRun : Bytes → Nat
  | b0 :: b1 :: rest => if 32 ≤ b0 && b1 == 0 then 1 + widePairRun rest else 0
  | _ => 0

/-- Matcher for `((?:[^\x00\x01-\x1f]\x00)\x7b3,50\x7d)`: greedy pair run,
3 to 50 pairs, no trailing constraint. -/
def widePairMatcher (s : Bytes) : Option (Bytes × Nat) :=
  let k := min (widePairRun s) 50
  if 3 ≤ k then some (s.take (2 * k), 2 * k) else none

/-- Name prefixes rejected by `_extract_nearby_string`. -/
def TRACK_NAME_BAD_PREFIXES : List String :=
  ["MTrack", "MAudio", "MInstr", "MSampl", "MMidi", "MFX", "MGroup"]

/-- Validation of one wide-string candidate in `_extract_nearby_string`. -/
def nearbyStringCandidate (cap : Bytes) : Option String :=
  let decoded := pyStrip (decodeUtf16le cap)
  if decoded != "" && 2 ≤ decoded.length && decoded.length ≤ 80 &&
      !(TRACK_NAME_BAD_PREFIXES.any (fun p => strStartsWith decoded p)) &&
      anyAlpha decoded then
    some decoded
  else none

/-- Embedding of `CprParser._extract_nearby_string`: first valid UTF-16LE
wide string in the 500-byte window after `pos`, else "". -/
def extractNearbyString (data : Bytes) (pos : Nat) : String :=
  let region := (data.drop pos).take 500
  match (scanMatches widePairMatcher 0 region).findSome?
      (fun pc => nearbyStringCandidate pc.2) with
  | some s => s
  | none => ""

/-- Model of `str.title()` as used on the one-word lowercase track-marker
values ("audio" → "Audio"). -/
def strTitle (s : String) : String :=
  match s.data with
  | [] => ""
  | c :: rest => String.mk (c.toUpper :: rest)

/-- Raw legacy hits: every `TRACK_MARKERS` occurrence, tagged with its type
string and marker, stably sorted by position. -/
def legacyRaw (data : Bytes) : List ((String × Bytes) × Nat) :=
  sortByPos (TRACK_MARKERS.foldl
    (fun acc mt => acc ++ (litPositions mt.1 data).map (fun p => ((mt.2, mt.1), p)))
    [])

/-- Loop of `_extract_legacy_tracks`: build a `Track` per hit with a
running index, `has_content = true`, and a nearby wide-string name with a
synthesized fallback. -/
def legacyBuild (data : Bytes) : List ((String × Bytes) × Nat) → Nat → List (Track × Nat)
  | [], _ => []
  | tm :: rest, idx =>
    let ty := tm.1.1
    let mk := tm.1.2
    let pos := tm.2
    let nm := extractNearbyString data (pos + mk.length)
    let base : Track :=
      { name := if nm != "" then nm else strTitle ty ++ " " ++ toString (idx + 1),
        track_type := trackTypeOfValue ty, index := idx, has_content := true }
    (base, pos) :: legacyBuild data rest (idx + 1)

/-- Running reindex `track.index = len(project.tracks)` as strips are
appended in `_extract_tracks`. -/
def reindexPositioned (l : List (Track × Nat)) : List (Track × Nat) :=
  mapIdxGo (fun i tp => ({ tp.1 with index := i }, tp.2)) 0 l

/-- Embedding of `CprParser._extract_tracks`: channel-strip strategy with
dedup, I/O filtering and IDString classification; legacy markers as the
fallback when no strip matches. Returns the `(track, position)` pairs that
populate both `project.tracks` and `_track_positions`. -/
def extractTracks (data : Bytes) : List (Track × Nat) :=
  let strips := extractChannelStrips data
  if strips.isEmpty then legacyBuild data (legacyRaw data) 0
  else
    reindexPositioned
      (classifyByIdstring (findChannelIdstrings data)
        (filterIoSection (dedupStrips strips)))

-- ── Audio references (CprParser._extract_audio_references) ───────────────

/-- Case-insensitive byte predicate for one pattern byte (IGNORECASE on a
byte regex folds ASCII letters only). -/
def ciByte (c : Nat) (b : Nat) : Bool :=
  b == c ||
    (97 ≤ c && c ≤ 122 && b == c - 32) ||
    (65 ≤ c && c ≤ 90 && b == c + 32)

/-- Case-insensitive predicates for a literal pattern. -/
def ciP (pat : Bytes) : List (Nat → Bool) := pat.map ciByte

/-- Matcher for `([\w\-\. ]+\.EXT)` with IGNORECASE: greedy class run
backtracked longest-first until `.EXT` matches right after the kept run. -/
def extMatcher (ext : Bytes) (s : Bytes) : Option (Bytes × Nat) :=
  greedyDown 1 (runLen isWordishByte s) (fun k =>
    if matchSeq (ciP ([46] ++ ext)) (s.drop k) then
      some (s.take (k + 1 + ext.length), k + 1 + ext.length)
    else none)

/-- Matcher for the per-track variant `([\w\-\. ]+\.wav)\x00` (IGNORECASE);
the capture excludes the trailing NUL, the match consumes it. -/
def wavNulMatcher (s : Bytes) : Option (Bytes × Nat) :=
  greedyDown 1 (runLen isWordishByte s) (fun k =>
    if matchSeq (ciP (ascii ".wav") ++ litP [0]) (s.drop k) then
      some (s.take (k + 4), k + 5)
    else none)

/-- Leading run of `[\w\-\. ]\x00` pairs (the wide-string wav scan). -/
def wideWavPairRun : Bytes → Nat
  | b0 :: b1 :: rest => if isWordishByte b0 && b1 == 0 then 1 + wideWavPairRun rest else 0
  | _ => 0

/-- Matcher for `((?:[\w\-\. ]\x00)+w\x00a\x00v\x00)` with IGNORECASE:
greedy pair run backtracked longest-first until the wide `wav` tail
matches. -/
def wideWavMatcher (s : Bytes) : Option (Bytes × Nat) :=
  greedyDown 1 (wideWavPairRun s) (fun p =>
    if matchSeq (ciP (ascii "w") ++ litP [0] ++ ciP (ascii "a") ++ litP [0] ++
        ciP (ascii "v") ++ litP [0]) (s.drop (2 * p)) then
      some (s.take (2 * p + 6), 2 * p + 6)
    else none)

/-- The non-wav extension literals of the third scan, in source order. -/
def AUDIO_EXTS : List Bytes :=
  [ascii "mp3", ascii "flac", ascii "aif", ascii "aiff", ascii "ogg", ascii "m4a"]

/-- Fold one UTF-8 filename scan into the referenced set. -/
def addUtf8Refs (data : Bytes) (ext : Bytes) (referenced : List String) : List String :=
  (scanMatches (extMatcher ext) 0 data).foldl (fun acc pc =>
    let nm := pyStrip (decodeUtf8 pc.2)
    if nm != "" && nm.length > 4 then setAdd acc (strToLower nm) else acc) referenced

/-- Embedding of `CprParser._extract_audio_references` (result is the
`referenced_audio` set in scan-insertion order). -/
def extractAudioReferences (data : Bytes) : List String :=
  let r1 := addUtf8Refs data (ascii "wav") []
  let r2 := (scanMatches wideWavMatcher 0 data).foldl (fun acc pc =>
    let nm := pyStrip (decodeUtf16le pc.2)
    if nm != "" && nm.length > 4 then setAdd acc (strToLower nm) else acc) r1
  AUDIO_EXTS.foldl (fun acc ext => addUtf8Refs data ext acc) r2

-- ── RealWorld parameters (cpr_parser helpers) ────────────────────────────

/-- Split on whitespace runs, dropping empties (Python `str.split()`). -/
def splitWsGo : List Char → List Char → List (List Char)
  | [], acc => if acc.isEmpty then [] else [acc.reverse]
  | c :: rest, acc =>
    if c.isWhitespace then
      if acc.isEmpty then splitWsGo rest [] else acc.reverse :: splitWsGo rest []
    else splitWsGo rest (c :: acc)

/-- Model of Python `str.split()` with no argument. -/
def pySplitWs (s : String) : List String := (splitWsGo s.data []).map String.mk

/-- Embedding of `_parse_realworld_params`: a `*` token and a token that
raises `ValueError` both become the Python `None` (the outer `none`);
every other token keeps its parsed float, `some none` being a parsed
non-finite (NaN/infinity spelling). -/
def parseRealworldParams (raw : String) : List (Option (Option Rat)) :=
  (pySplitWs raw).map (fun token =>
    if token == "*" then none
    else match parseFloat? token with
      | some v => some v
      | none => none)

/-- Embedding of the helper `_rw`: indexed read with a default for
out-of-range or unset slots. -/
def rwGet (values : List (Option Rat)) (idx : Nat) (dflt : Rat) : Rat :=
  match values.getD idx none with
  | some v => v
  | none => dflt

/-- Loop of the generic fallback branch of `_interpret_realworld`:
`for i, v in enumerate(values[:20])`, storing present values as
`Param_i`. -/
def genericNumberedGo (params : List (String × Rat)) : Nat → List (Option Rat) → List (String × Rat)
  | _, [] => params
  | i, v :: rest =>
    match v with
    | some x => genericNumberedGo (dictSet params ("Param_" ++ toString i) x) (i + 1) rest
    | none => genericNumberedGo params (i + 1) rest

/-- Generic numbered storage of the first 20 vector slots. -/
def genericNumberedParams (params : List (String × Rat)) (values : List (Option Rat)) :
    List (String × Rat) :=
  genericNumberedGo params 0 (values.take 20)

/-- Embedding of `_interpret_realworld` (pure: returns the updated
plugin). Non-integer literals are written with `mkRat`. -/
def interpretRealworld (plugin : PluginInstance) (plugin_name : String)
    (values : List (Option Rat)) (preset_name : String) : PluginInstance :=
  if plugin_name == "SSLEQ" then
    let bands : List EQBand :=
      [{ enabled := decide (rwGet values 0 0 > mkRat 1 2),
         band_type := if decide (rwGet values 1 0 > mkRat 1 2) then .peak else .lowShelf,
         frequency := rwGet values 2 60, gain := rwGet values 4 0, q := 1 },
       { enabled := true, band_type := .peak, frequency := rwGet values 5 200,
         gain := rwGet values 8 0, q := rwGet values 9 (mkRat 1 2) },
       { enabled := true, band_type := .peak, frequency := rwGet values 14 (mkRat 7 2) * 1000,
         gain := rwGet values 13 0, q := rwGet values 10 (mkRat 5 2) },
       { enabled := decide (rwGet values 16 0 > mkRat 1 2), band_type := .highShelf,
         frequency := rwGet values 18 8 * 1000, gain := rwGet values 17 0, q := 1 }]
    { plugin with
      eq_bands := bands.filter (fun b => b.gain != 0 || b.enabled),
      parameters := dictSet plugin.parameters "Output Trim" (rwGet values 19 0) }
  else if plugin_name == "SSLChannel" then
    let p1 :=
      if values.length > 24 then
        let bands : List EQBand :=
          [{ enabled := true, band_type := .lowShelf, frequency := rwGet values 15 60,
             gain := rwGet values 16 0, q := 1 },
           { enabled := true, band_type := .peak, frequency := rwGet values 18 (mkRat 5 2) * 1000,
             gain := rwGet values 19 0, q := rwGet values 17 (mkRat 1 2) },
           { enabled := true, band_type := .peak, frequency := rwGet values 20 (mkRat 7 2) * 1000,
             gain := rwGet values 22 0, q := rwGet values 21 (mkRat 3 2) },
           { enabled := true, band_type := .highShelf, frequency := rwGet values 24 8 * 1000,
             gain := rwGet values 23 0, q := 1 }]
        { plugin with eq_bands := bands.filter (fun b => b.gain != 0) }
      else plugin
    let comp_thresh := rwGet values 0 0
    if decide (comp_thresh < 0) then
      let comp : CompressorSettings :=
        { plugin_name := plugin_name, threshold := comp_thresh, release := rwGet values 3 0 }
      { p1 with compressor := some comp }
    else p1
  else if plugin_name == "CLA-76" || plugin_name == "CLA76" then
    let comp : CompressorSettings :=
      { plugin_name := plugin_name, input_gain := rwGet values 0 0,
        output_gain := rwGet values 1 0, attack := rwGet values 2 0,
        release := rwGet values 3 0, ratio := 4 }
    if preset_name != "" then
      { plugin with
        parameters := dictSet plugin.parameters "Preset" 0,
        compressor := some { comp with
          raw_parameters := dictSet comp.raw_parameters "preset_name" (RawPVal.str preset_name) } }
    else { plugin with compressor := some comp }
  else if plugin_name == "CLA-2A" || plugin_name == "CLA2A" then
    let comp : CompressorSettings :=
      { plugin_name := plugin_name, threshold := rwGet values 0 0,
        output_gain := rwGet values 1 0 }
    { plugin with compressor := some comp }
  else if plugin_name == "C1Comp" then
    let comp : CompressorSettings :=
      { plugin_name := plugin_name, threshold := rwGet values 17 0,
        ratio := rwGet values 18 1, attack := rwGet values 0 (mkRat 1 100) }
    { plugin with compressor := some comp }
  else if plugin_name == "DeEsser" then
    let params1 := dictSet plugin.parameters "Frequency" (rwGet values 0 5500)
    { plugin with parameters := dictSet params1 "Threshold" (rwGet values 2 0) }
  else
    { plugin with parameters := genericNumberedParams plugin.parameters values }

-- ── Plugin registry (cubasetools/core/plugin_registry.py) ────────────────

/-- Embedding of `plugin_registry._match_param`: exact key first, then the
first case-insensitive hit in insertion order, then the next key. -/
def matchParam (params : List (String × Rat)) : List String → Option Rat
  | [] => none
  | key :: rest =>
    match List.lookup key params with
    | some v => some v
    | none =>
      match params.find? (fun kv => strToLower kv.1 == strToLower key) with
      | some kv => some kv.2
      | none => matchParam params rest

/-- The SSL band table rows: label, band type, default frequency, on-key,
frequency key, gain key, optional Q key (from `SSL_EQ_BANDS` and
`SSL_EQ_PARAM_MAP`). -/
def SSL_BAND_ROWS : List (EQBandType × Rat × String × String × String × Option String) :=
  [(.lowShelf, 60, "LF Bell", "LF Freq", "LF Gain", none),
   (.peak, 400, "LMF On", "LMF Freq", "LMF Gain", some "LMF Q"),
   (.peak, 3000, "HMF On", "HMF Freq", "HMF Gain", some "HMF Q"),
   (.highShelf, 12000, "HF Bell", "HF Freq", "HF Gain", none)]

/-- One band of `_interpret_ssl`: defaults from the table, overridden by
present parameters; the band is kept only when a gain or frequency was
found. -/
def sslBand (params : List (String × Rat))
    (row : EQBandType × Rat × String × String × String × Option String) : Option EQBand :=
  let onKey := row.2.2.1
  let freqKey := row.2.2.2.1
  let gainKey := row.2.2.2.2.1
  let qKey := row.2.2.2.2.2
  let enabled := match List.lookup onKey params with
    | some v => decide (v > mkRat 1 2)
    | none => true
  let freq? := matchParam params [freqKey]
  let gain? := matchParam params [gainKey]
  let q? := match qKey with
    | some k => matchParam params [k]
    | none => none
  if gain?.isSome || freq?.isSome then
    some { enabled := enabled, band_type := row.1,
           frequency := freq?.getD row.2.1, gain := gain?.getD 0, q := q?.getD 1 }
  else none

/-- Embedding of `plugin_registry._interpret_ssl`. -/
def interpretSsl (plugin : PluginInstance) : PluginInstance :=
  let params := plugin.parameters
  let withBands :=
    { plugin with eq_bands := plugin.eq_bands ++ SSL_BAND_ROWS.filterMap (sslBand params) }
  match matchParam params ["Comp Threshold", "CompThresh", "Threshold"] with
  | none => withBands
  | some thr =>
    let comp : CompressorSettings :=
      { plugin_name := plugin.name, threshold := thr,
        ratio := (matchParam params ["Comp Ratio", "CompRatio", "Ratio"]).getD 1,
        attack := (matchParam params ["Comp Attack", "CompAttack", "Attack"]).getD 10,
        release := (matchParam params ["Comp Release", "CompRelease", "Release"]).getD 100,
        raw_parameters := (params.filter
            (fun kv => strContains kv.1 "Comp" || strContains kv.1 "comp")).map
          (fun kv => (kv.1, RawPVal.num kv.2)) }
    { withBands with compressor := some comp }

/-- Embedding of `plugin_registry._interpret_cla76`. -/
def interpretCla76 (plugin : PluginInstance) : PluginInstance :=
  let params := plugin.parameters
  let comp : CompressorSettings :=
    { plugin_name := plugin.name,
      input_gain := (matchParam params ["Input", "input"]).getD 0,
      output_gain := (matchParam params ["Output", "output"]).getD 0,
      attack := (matchParam params ["Attack", "attack"]).getD 10,
      release := (matchParam params ["Release", "release"]).getD 100,
      ratio := (matchParam params ["Ratio", "ratio"]).getD 1,
      raw_parameters := params.map (fun kv => (kv.1, RawPVal.num kv.2)) }
  { plugin with compressor := some comp }

/-- Embedding of `plugin_registry._interpret_cla2a`. -/
def interpretCla2a (plugin : PluginInstance) : PluginInstance :=
  let params := plugin.parameters
  let comp : CompressorSettings :=
    { plugin_name := plugin.name,
      threshold := (matchParam params ["Peak Reduction", "PeakReduction"]).getD 0,
      output_gain := (matchParam params ["Output Gain", "Gain"]).getD 0,
      raw_parameters := params.map (fun kv => (kv.1, RawPVal.num kv.2)) }
  { plugin with compressor := some comp }

/-- Truncation toward zero (Python `int()` on a float). -/
def ratTrunc (x : Rat) : Int := if x < 0 then -Rat.floor (-x) else Rat.floor x

/-- Embedding of `PROQ_BAND_TYPES` with its `.get(..., PEAK)` default. -/
def proqBandType (shape : Int) : EQBandType :=
  if shape == 0 then .peak
  else if shape == 1 then .lowShelf
  else if shape == 2 then .lowCut
  else if shape == 3 then .highShelf
  else if shape == 4 then .highCut
  else if shape == 5 then .notch
  else .peak

/-- Ascending insertion for `Nat` (model of iterating a sorted set). -/
def insertNat (n : Nat) : List Nat → List Nat
  | [] => [n]
  | m :: rest => if m < n then m :: insertNat n rest else n :: m :: rest

/-- Ascending sort for `Nat` lists. -/
def sortNats : List Nat → List Nat
  | [] => []
  | n :: rest => insertNat n (sortNats rest)

/-- Band numbers of `_interpret_proq`: keys starting `Band `/`band ` whose
next space-delimited token is numeric, deduplicated and sorted. -/
def proqBandNums (params : List (String × Rat)) : List Nat :=
  sortNats (params.foldl (fun acc kv =>
    ["Band ", "band "].foldl (fun acc2 pre =>
      if strStartsWith kv.1 pre then
        let tok := (kv.1.data.drop pre.length).takeWhile (fun c => c != ' ')
        if !tok.isEmpty && tok.all Char.isDigit then
          let n := digitsVal tok 0
          if acc2.contains n then acc2 else acc2 ++ [n]
        else acc2
      else acc2) acc) [])

/-- One band of `_interpret_proq`. -/
def proqBand (params : List (String × Rat)) (num : Nat) : EQBand :=
  let nn := toString num
  let base : EQBand := {}
  let b1 := match matchParam params ["Band " ++ nn ++ " Freq", "Band " ++ nn ++ " Frequency"] with
    | some v => { base with frequency := v }
    | none => base
  let b2 := match matchParam params ["Band " ++ nn ++ " Gain"] with
    | some v => { b1 with gain := v }
    | none => b1
  let b3 := match matchParam params ["Band " ++ nn ++ " Q"] with
    | some v => { b2 with q := v }
    | none => b2
  let b4 := match matchParam params ["Band " ++ nn ++ " Shape", "Band " ++ nn ++ " Type"] with
    | some v => { b3 with band_type := proqBandType (ratTrunc v) }
    | none => b3
  match matchParam params ["Band " ++ nn ++ " Enabled"] with
  | some v => { b4 with enabled := decide (v > mkRat 1 2) }
  | none => b4

/-- Embedding of `plugin_registry._interpret_proq`. -/
def interpretProq (plugin : PluginInstance) : PluginInstance :=
  { plugin with eq_bands :=
      plugin.eq_bands ++ (proqBandNums plugin.parameters).map (proqBand plugin.parameters) }

/-- Case-insensitive prefix match on char lists. -/
def ciPrefixChars : List Char → List Char → Bool
  | [], _ => true
  | _ :: _, [] => false
  | k :: ks, c :: cs => (k.toLower == c.toLower) && ciPrefixChars ks cs

/-- Model of `re.search(kw + optional-whitespace + digits, key, IGNORECASE)`
returning the captured number (the `band\s*(\d+)` style probes of
`_interpret_generic_eq`). -/
def searchNumAfterKw (kw : List Char) (allowWs : Bool) : List Char → Option Nat
  | [] => none
  | c :: rest =>
    if ciPrefixChars kw (c :: rest) then
      let after := (c :: rest).drop kw.length
      let after2 := if allowWs then after.dropWhile Char.isWhitespace else after
      let ds := after2.takeWhile Char.isDigit
      if !ds.isEmpty then some (digitsVal ds 0) else searchNumAfterKw kw allowWs rest
    else searchNumAfterKw kw allowWs rest

/-- Band numbers of `_interpret_generic_eq` from its three regex probes. -/
def genericEqBandNums (params : List (String × Rat)) : List Nat :=
  sortNats (params.foldl (fun acc kv =>
    [searchNumAfterKw "band".data true kv.1.data,
     searchNumAfterKw "eq".data true kv.1.data,
     searchNumAfterKw "band".data false kv.1.data].foldl (fun acc2 r =>
      match r with
      | some n => if acc2.contains n then acc2 else acc2 ++ [n]
      | none => acc2) acc) [])

/-- One band of `_interpret_generic_eq`: every key containing the number
contributes by keyword. -/
def genericEqBand (params : List (String × Rat)) (num : Nat) : EQBand :=
  params.foldl (fun b kv =>
    let kl := strToLower kv.1
    if !(strContains kl (toString num)) then b
    else if strContains kl "freq" then { b with frequency := kv.2 }
    else if strContains kl "gain" then { b with gain := kv.2 }
    else if strContains kl "q" || strContains kl "width" then { b with q := kv.2 }
    else b) {}

/-- Embedding of `plugin_registry._interpret_generic_eq`. -/
def interpretGenericEq (plugin : PluginInstance) : PluginInstance :=
  let params := plugin.parameters
  if !(params.any (fun kv =>
      ["freq", "gain", "band"].any (fun kw => strContains (strToLower kv.1) kw))) then
    plugin
  else
    let newBands := ((genericEqBandNums params).map (genericEqBand params)).filter
      (fun b => b.frequency != 1000 || b.gain != 0)
    { plugin with eq_bands := plugin.eq_bands ++ newBands }

/-- Embedding of `plugin_registry._interpret_generic_compressor`. -/
def interpretGenericCompressor (plugin : PluginInstance) : PluginInstance :=
  let params := plugin.parameters
  if !(params.any (fun kv =>
      ["threshold", "ratio", "attack", "release", "knee", "makeup"].any
        (fun kw => strContains (strToLower kv.1) kw))) then
    plugin
  else
    let comp0 : CompressorSettings := { plugin_name := plugin.name }
    let comp1 := params.foldl (fun c kv =>
      let kl := strToLower kv.1
      if strContains kl "threshold" || strContains kl "thresh" then { c with threshold := kv.2 }
      else if strContains kl "ratio" then { c with ratio := kv.2 }
      else if strContains kl "attack" then { c with attack := kv.2 }
      else if strContains kl "release" then { c with release := kv.2 }
      else if strContains kl "knee" then { c with knee := kv.2 }
      else if strContains kl "makeup" || strContains kl "make-up" then { c with makeup_gain := kv.2 }
      else c) comp0
    let comp2 := { comp1 with raw_parameters := params.map (fun kv => (kv.1, RawPVal.num kv.2)) }
    { plugin with compressor := some comp2 }

/-- Embedding of `plugin_registry._name_matches`. -/
def nameMatches (plugin_name : String) (patterns : List String) : Bool :=
  patterns.any (fun p => strContains (strToLower plugin_name) (strToLower p))

/-- Embedding of `plugin_registry.interpret_plugin_parameters`. -/
def interpretPluginParameters (plugin : PluginInstance) : PluginInstance :=
  if nameMatches plugin.name ["SSL", "Channel Strip", "E-Channel", "G-Channel"] then
    interpretSsl plugin
  else if nameMatches plugin.name ["CLA-76", "CLA76"] then interpretCla76 plugin
  else if nameMatches plugin.name ["CLA-2A", "CLA2A"] then interpretCla2a plugin
  else if nameMatches plugin.name ["Pro-Q", "ProQ"] then interpretProq plugin
  else interpretGenericCompressor (interpretGenericEq plugin)

-- ── Preset chunks (CprParser._index_preset_chunk_data) ───────────────────

/-- First match of a matcher inside a region (model of `re.search`). -/
def searchM {α : Type} (m : Bytes → Option (α × Nat)) (region : Bytes) : Option (Nat × α) :=
  (scanMatches m 0 region).head?

/-- The literal `PresetChunkXMLTree`. -/
def presetChunkLit : Bytes := ascii "PresetChunkXMLTree"

/-- Matcher for `PresetChunkXMLTree[^>]*>`: the greedy non-`>` run is
forced (a shorter run is followed by a non-`>` byte). -/
def presetChunkMatcher (s : Bytes) : Option (Unit × Nat) :=
  if matchSeq (litP presetChunkLit) s then
    let t := s.drop 18
    let r := runLen (fun b => b != 62) t
    if t.getD r 999 == 62 then some ((), 18 + r + 1) else none
  else none

/-- Matcher for `<PluginName>([^<]+)</PluginName>` (the greedy capture run
is forced: a shorter run resumes at a non-`<` byte where the closing tag
cannot start). -/
def pluginNameMatcher (s : Bytes) : Option (Bytes × Nat) :=
  if matchSeq (litP (ascii "<PluginName>")) s then
    let t := s.drop 12
    let r := runLen (fun b => b != 60) t
    if 1 ≤ r && matchSeq (litP (ascii "</PluginName>")) (t.drop r) then
      some (t.take r, 12 + r + 13)
    else none
  else none

/-- Matcher for `<Preset\s+Name="([^"]*)"` (both greedy runs forced). -/
def presetNameMatcher (s : Bytes) : Option (Bytes × Nat) :=
  if matchSeq (litP (ascii "<Preset")) s then
    let t := s.drop 7
    let w := runLen isSpaceByte t
    if 1 ≤ w && matchSeq (litP (ascii "Name=" ++ [34])) (t.drop w) then
      let u := t.drop (w + 6)
      let r := runLen (fun b => b != 34) u
      if u.getD r 999 == 34 then some (u.take r, 7 + w + 6 + r + 1) else none
    else none
  else none

/-- Matcher for the RealWorld block regex
`<PresetData\s+Setup="SETUP_A"[^>]*>\s*<Parameters\s+Type="RealWorld">\s*([^<]+)</Parameters>`.
All greedy pieces are forced except the boundary between the final `\s*`
and the capture: when the byte after the whitespace run is already `<`,
the engine backtracks one whitespace char into the capture. -/
def realWorldMatcher (s : Bytes) : Option (Bytes × Nat) :=
  if matchSeq (litP (ascii "<PresetData")) s then
    let t := s.drop 11
    let w1 := runLen isSpaceByte t
    if 1 ≤ w1 &&
        matchSeq (litP (ascii "Setup=" ++ [34] ++ ascii "SETUP_A" ++ [34])) (t.drop w1) then
      let u := t.drop (w1 + 15)
      let g := runLen (fun b => b != 62) u
      if u.getD g 999 == 62 then
        let v := u.drop (g + 1)
        let w2 := runLen isSpaceByte v
        if matchSeq (litP (ascii "<Parameters")) (v.drop w2) then
          let x := v.drop (w2 + 11)
          let w3 := runLen isSpaceByte x
          if 1 ≤ w3 &&
              matchSeq (litP (ascii "Type=" ++ [34] ++ ascii "RealWorld" ++ [34] ++ [62]))
                (x.drop w3) then
            let y := x.drop (w3 + 17)
            let w4 := runLen isSpaceByte y
            let r := runLen (fun b => b != 60) (y.drop w4)
            let consumed := 11 + w1 + 15 + g + 1 + w2 + 11 + w3 + 17 + w4 + r + 13
            if 1 ≤ r then
              if matchSeq (litP (ascii "</Parameters>")) ((y.drop w4).drop r) then
                some ((y.drop w4).take r, consumed)
              else none
            else
              if 1 ≤ w4 && matchSeq (litP (ascii "</Parameters>")) (y.drop w4) then
                some ((y.drop (w4 - 1)).take 1, consumed)
              else none
          else none
        else none
      else none
    else none
  else none

/-- Word bytes of the `\w` class. -/
def isWordByte (b : Nat) : Bool :=
  (48 ≤ b && b ≤ 57) || (65 ≤ b && b ≤ 90) || (97 ≤ b && b ≤ 122) || b == 95

/-- Matcher for the attribute-parameter regex
`<(\w+)\s+[^>]*?(?:name|Name)="([^"]+)"[^>]*?(?:value|Value)="([^"]+)"`:
lazy gaps over non-`>` bytes tried shortest-first with full backtracking,
greedy word/whitespace/capture runs forced. Payload: (name, value) byte
captures. -/
def attrParamMatcher (s : Bytes) : Option ((Bytes × Bytes) × Nat) :=
  if s.headD 999 == 60 then
    let t := s.drop 1
    let wl := runLen isWordByte t
    if 1 ≤ wl then
      let u := t.drop wl
      let ws := runLen isSpaceByte u
      if 1 ≤ ws then
        let v := u.drop ws
        firstGap (runLen (fun b => b != 62) v + 1) (fun g1 =>
          let v1 := v.drop g1
          if matchSeq (litP (ascii "name=" ++ [34])) v1 ||
              matchSeq (litP (ascii "Name=" ++ [34])) v1 then
            let nm := v1.drop 6
            let nr := runLen (fun b => b != 34) nm
            if 1 ≤ nr && nm.getD nr 999 == 34 then
              let w := nm.drop (nr + 1)
              firstGap (runLen (fun b => b != 62) w + 1) (fun g2 =>
                let w1 := w.drop g2
                if matchSeq (litP (ascii "value=" ++ [34])) w1 ||
                    matchSeq (litP (ascii "Value=" ++ [34])) w1 then
                  let vv := w1.drop 7
                  let vr := runLen (fun b => b != 34) vv
                  if 1 ≤ vr && vv.getD vr 999 == 34 then
                    some ((nm.take nr, vv.take vr),
                      1 + wl + ws + g1 + 6 + nr + 1 + g2 + 7 + vr + 1)
                  else none
                else none)
            else none
          else none)
      else none
    else none
  else none

/-- Embedding of `CprParser._index_preset_chunk_data`: position-indexed
plugin data parsed from each `PresetChunkXMLTree` block (insertion order =
ascending scan order, as in the source dict). -/
def indexPresetChunkData (data : Bytes) : List (Nat × PluginInstance) :=
  (scanMatches presetChunkMatcher 0 data).filterMap (fun pm =>
    let pos := pm.1
    let region := (data.drop pos).take 5000
    match searchM pluginNameMatcher region with
    | none => none
    | some pn =>
      let plugin_name := decodeUtf8 pn.2
      let preset_name := match searchM presetNameMatcher region with
        | some pr => decodeUtf8 pr.2
        | none => ""
      let plugin0 : PluginInstance := { name := plugin_name }
      let plugin1 := match searchM realWorldMatcher region with
        | some rw =>
          let raw := pyStrip (decodeUtf8 rw.2)
          let values := (parseRealworldParams raw).map (fun v => v.getD none)
          interpretRealworld plugin0 plugin_name values preset_name
        | none => plugin0
      let plugin2 :=
        if plugin1.parameters.isEmpty && plugin1.eq_bands.isEmpty &&
            plugin1.compressor.isNone then
          let withAttrs := (scanMatches attrParamMatcher 0 region).foldl (fun pl nv =>
            match parseFloat? (decodeUtf8 nv.2.2) with
            | some (some v) =>
              { pl with parameters := dictSet pl.parameters (decodeUtf8 nv.2.1) v }
            | some none => pl
            | none => pl) plugin1
          if !withAttrs.parameters.isEmpty then interpretPluginParameters withAttrs
          else withAttrs
        else plugin1
      some (pos, plugin2))

-- ── VST3 plugins (._extract_vst3_plugins / ._merge_preset_data) ──────────

/-- The literal `Plugin Name\x00`. -/
def pluginNameTag : Bytes := ascii "Plugin Name" ++ [0]

/-- Name capture after a `Plugin Name\x00` hit:
`re.match` of `.\x7b0,8\x7d?([\x20-\x7e]\x7b2,50\x7d)` on the following 88-byte
window, decoded and stripped. -/
def vst3NameAt (data : Bytes) (pos : Nat) : Option String :=
  let after := (data.drop (pos + 12)).take 88
  firstGap 9 (fun g =>
    let t := after.drop g
    let r := min (runLen isPrintableByte t) 50
    if 2 ≤ r then some (pyStrip (decodeUtf8 (t.take r))) else none)

/-- Mono/stereo suffix normalization applied to the VST3-entry name in
`_merge_preset_data` and to both names in `_deduplicate_plugins`: the
three replaces run in source order (` Mono`, then ` Stereo`, then
` Mono/Stereo`). -/
def normalizePluginName (n : String) : String :=
  strReplaceAll (strReplaceAll (strReplaceAll n " Mono" "") " Stereo" "") " Mono/Stereo" ""

/-- The chunk-side normalization of `_merge_preset_data`, which applies
only the ` Mono` and ` Stereo` replaces (no ` Mono/Stereo` pass). -/
def chunkBaseName (n : String) : String :=
  strReplaceAll (strReplaceAll n " Mono" "") " Stereo" ""

/-- Embedding of `CprParser._merge_preset_data`: the first indexed chunk
within 5000 bytes with a matching normalized name donates its bands,
compressor, parameters and bypass flag; the display name stays. -/
def mergePresetData (chunks : List (Nat × PluginInstance)) (plugin : PluginInstance)
    (vst3Pos : Nat) : Option PluginInstance :=
  match chunks.find? (fun ck =>
      decide (Nat.dist ck.1 vst3Pos ≤ 5000) &&
        (chunkBaseName ck.2.name == normalizePluginName plugin.name)) with
  | some ck =>
    let merged : PluginInstance :=
      { name := plugin.name, eq_bands := ck.2.eq_bands, compressor := ck.2.compressor,
        parameters := ck.2.parameters, bypassed := ck.2.bypassed }
    some merged
  | none => none

/-- Embedding of `CprParser._extract_vst3_plugins`. The source also
computes an `is_insert` flag from the preceding 300 bytes, but appends the
entry on both branches, so the flag has no effect on the result. -/
def extractVst3Plugins (data : Bytes) (chunks : List (Nat × PluginInstance)) :
    List (PluginInstance × Nat) :=
  (litPositions pluginNameTag data).filterMap (fun pos =>
    match vst3NameAt data pos with
    | none => none
    | some plugin_name =>
      if BUILTIN_PLUGINS.contains plugin_name then none
      else
        let plugin0 : PluginInstance := { name := plugin_name }
        some ((mergePresetData chunks plugin0 pos).getD plugin0, pos))

-- ── Plugin dedup (CprParser._deduplicate_plugins) ────────────────────────

/-- The richness score of `_deduplicate_plugins`: parameter count plus
band count plus 1 when a compressor is present. -/
def pluginScore (p : PluginInstance) : Nat :=
  p.parameters.length + p.eq_bands.length + (if p.compressor.isSome then 1 else 0)

/-- Inner loop of `_deduplicate_plugins`: starting from a group anchor,
consume consecutive entries whose normalized name matches while they stay
within 20000 bytes of the anchor, keeping the best-scoring entry (strictly
better replaces, so ties keep the earlier one); return it and the
remainder. -/
def dedupGroup (currentPos : Nat) (curBase : String) :
    (PluginInstance × Nat) → List (PluginInstance × Nat) →
      ((PluginInstance × Nat) × List (PluginInstance × Nat))
  | best, [] => (best, [])
  | best, nx :: rest =>
    if nx.2 - currentPos > 20000 then (best, nx :: rest)
    else if normalizePluginName nx.1.name == curBase then
      dedupGroup currentPos curBase
        (if pluginScore nx.1 > pluginScore best.1 then nx else best) rest
    else (best, nx :: rest)

/-- Fuelled outer loop of `_deduplicate_plugins` (each step consumes at
least the group anchor, so fuel = length is adequate). -/
def dedupPluginsGoF : Nat → List (PluginInstance × Nat) → List (PluginInstance × Nat)
  | 0, _ => []
  | _ + 1, [] => []
  | fuel + 1, cur :: rest =>
    let g := dedupGroup cur.2 (normalizePluginName cur.1.name) cur rest
    g.1 :: dedupPluginsGoF fuel g.2

/-- Embedding of `CprParser._deduplicate_plugins`. -/
def dedupPlugins (plugins : List (PluginInstance × Nat)) : List (PluginInstance × Nat) :=
  let sorted := sortByPos plugins
  dedupPluginsGoF (sorted.length + 1) sorted

-- ── Plugin assignment (CprParser._assign_plugins_to_tracks) ──────────────

/-- Append a plugin to a track chain, stamping the running slot index
(`plugin.slot_index = len(track.plugins)` before the append). -/
def appendPlugin (t : Track) (p : PluginInstance) : Track :=
  { t with plugins := t.plugins ++ [{ p with slot_index := t.plugins.length }] }

/-- The synthesized default master track of the no-positions branch. -/
def defaultMasterWith (plugins : List (PluginInstance × Nat)) : Track :=
  plugins.foldl (fun t pp => appendPlugin t pp.1)
    { name := "Master", track_type := .master, index := 0 }

/-- Index of the assigned track: the last strip at or before the plugin
position, defaulting to the first strip. -/
def chooseIdxGo : List (Track × Nat) → Nat → Nat → Nat → Nat
  | [], _, _, acc => acc
  | tp :: rest, ppos, i, acc =>
    if tp.2 ≤ ppos then chooseIdxGo rest ppos (i + 1) i else acc

/-- Index into the position-sorted strips chosen for a plugin. -/
def chooseIdx (sorted : List (Track × Nat)) (ppos : Nat) : Nat := chooseIdxGo sorted ppos 0 0

/-- Update the i-th element of a list in place. -/
def updateNth {α : Type} (l : List α) (i : Nat) (f : α → α) : List α :=
  mapIdxGo (fun j x => if j == i then f x else x) 0 l

/-- Assignment loop over deduplicated plugins (the strips handed in are
already position-sorted, so the stable re-sort of the source leaves the
order — and hence `project.tracks` — unchanged). -/
def assignToPositioned (positioned : List (Track × Nat))
    (plugins : List (PluginInstance × Nat)) : List (Track × Nat) :=
  plugins.foldl (fun acc pp =>
    updateNth acc (chooseIdx acc pp.2) (fun tp => (appendPlugin tp.1 pp.1, tp.2)))
    (sortByPos positioned)

/-- Embedding of `CprParser._assign_plugins_to_tracks`. `project.tracks`
is empty exactly when the positioned list is empty (both are populated by
the same loop in `_extract_tracks`), so the source guard
`plugins and not self.project.tracks` is the second branch below. Returns
the updated positioned tracks and the synthesized track list. -/
def assignPluginsToTracks (positioned : List (Track × Nat))
    (plugins : List (PluginInstance × Nat)) : List (Track × Nat) × List Track :=
  if positioned.isEmpty || plugins.isEmpty then
    if !plugins.isEmpty && positioned.isEmpty then (positioned, [defaultMasterWith plugins])
    else (positioned, [])
  else (assignToPositioned positioned plugins, [])

/-- Embedding of `CprParser._extract_plugins`: chunk indexing, VST3
extraction, dedup, assignment. -/
def extractPlugins (data : Bytes) (positioned : List (Track × Nat)) :
    List (Track × Nat) × List Track :=
  let chunks := indexPresetChunkData data
  assignPluginsToTracks positioned (dedupPlugins (extractVst3Plugins data chunks))

-- ── Markers (CprParser._extract_markers) ─────────────────────────────────

/-- The literal `MMarkerEvent`. -/
def markerEventLit : Bytes := ascii "MMarkerEvent"

/-- Embedding of `CprParser._extract_markers`. -/
def extractMarkers (data : Bytes) : List Marker :=
  mapIdxGo (fun i pos =>
    let nm := extractNearbyString data pos
    ({ name := if nm != "" then nm else "Marker " ++ toString (i + 1),
       marker_id := i + 1 } : Marker)) 0 (litPositions markerEventLit data)

-- ── Bus table / routing / sends (._build_bus_uid_table etc.) ─────────────

/-- The literal `OwnInputBus\x00`. -/
def ownInputBusTag : Bytes := ascii "OwnInputBus" ++ [0]

/-- Matcher for the bus-name search `Name\x00.\x7b0,12\x7d?([\x20-\x7e]\x7b2,50\x7d)\x00`
(DOTALL; greedy capture forced as in the strip pattern). -/
def busNameMatcher (s : Bytes) : Option (Bytes × Nat) :=
  if matchSeq (litP nameTag) s then
    firstGap 13 (fun g =>
      let t := s.drop (5 + g)
      let r := min (runLen isPrintableByte t) 50
      if 2 ≤ r && t.getD r 999 == 0 then some (t.take r, 5 + g + r + 1) else none)
  else none

/-- The literal prefix `Bus UID\x00\x00\x01` + four NULs. -/
def busUidTag : Bytes := ascii "Bus UID" ++ [0, 0, 1, 0, 0, 0, 0]

/-- Matcher for `Bus UID\x00\x00\x01\x00\x7b4\x7d(.\x7b4\x7d)`: the four captured
bytes decode big-endian (a short read means the regex cannot match). -/
def busUidMatcher (s : Bytes) : Option (Nat × Nat) :=
  if matchSeq (litP busUidTag) s then
    match decodeU32BE ((s.drop 14).take 4) with
    | some uid => some (uid, 18)
    | none => none
  else none

/-- Embedding of `CprParser._build_bus_uid_table` (uid 0 is excluded). -/
def buildBusUidTable (data : Bytes) : List (Nat × String) :=
  (litPositions ownInputBusTag data).foldl (fun table pos =>
    let region := (data.drop pos).take 500
    match searchM busNameMatcher region with
    | none => table
    | some nm =>
      let bus_name := pyStrip (decodeUtf8 nm.2)
      match searchM busUidMatcher region with
      | none => table
      | some um =>
        if um.2 != 0 then dictSetNat table um.2 bus_name else table) []

/-- The literal `OutputBus`. -/
def outputBusLit : Bytes := ascii "OutputBus"

/-- The literal prefix `Value\x00\x00\x01` + four NULs. -/
def valueUidTag : Bytes := ascii "Value" ++ [0, 0, 1, 0, 0, 0, 0]

/-- Matcher for `Value\x00\x00\x01\x00\x7b4\x7d(.\x7b4\x7d)` (big-endian UID). -/
def valueUidMatcher (s : Bytes) : Option (Nat × Nat) :=
  if matchSeq (litP valueUidTag) s then
    match decodeU32BE ((s.drop 12).take 4) with
    | some uid => some (uid, 16)
    | none => none
  else none

/-- Pair each positioned track with the next strip position. -/
def withNextPos : List (Track × Nat) → List ((Track × Nat) × Option Nat)
  | [] => []
  | [tp] => [(tp, none)]
  | tp :: nx :: rest => (tp, some nx.2) :: withNextPos (nx :: rest)

/-- Per-track body of `_extract_routing`: the first `OutputBus` hit with a
decodable UID ends the search (membership in the bus table is checked
after the break). -/
def extractRoutingTrack (bus_table : List (Nat × String)) (region : Bytes) (t : Track) :
    Track :=
  match (scanMatches (litMatcher outputBusLit) 0 region).findSome? (fun om =>
      let after := (region.drop om.1).take 200
      match searchM valueUidMatcher after with
      | some vm => some vm.2
      | none => none) with
  | some uid =>
    match List.lookup uid bus_table with
    | some nm => { t with output_bus := nm }
    | none => t
  | none => t

/-- Embedding of `CprParser._extract_routing` (region: strip to next strip
or +200KB, clamped to the buffer). -/
def extractRouting (bus_table : List (Nat × String)) (data : Bytes)
    (positioned : List (Track × Nat)) : List (Track × Nat) :=
  (withNextPos (sortByPos positioned)).map (fun tpn =>
    let strip := tpn.1.2
    let nextP := tpn.2.getD (strip + 200000)
    let region := (data.drop strip).take (min nextP (strip + 200000) - strip)
    (extractRoutingTrack bus_table region tpn.1.1, strip))

/-- The literal `SendFolder\x00`. -/
def sendFolderTag : Bytes := ascii "SendFolder" ++ [0]

/-- The literal `Volume\x00`. -/
def volumeTag : Bytes := ascii "Volume" ++ [0]

/-- The literal `Output\x00`. -/
def outputTag : Bytes := ascii "Output" ++ [0]

/-- The literal `Value\x00\x00\x04`. -/
def valueDblTag : Bytes := ascii "Value" ++ [0, 0, 4]

/-- Matcher for `Value\x00\x00\x04(.\x7b8\x7d)`: 8 captured bytes decoded as a
big-endian double (`none` payload for the NaN/infinity images). NaN fails
the `> 0` test of the source; a positive-infinity image instead passes it
and makes the `round` of the source raise `OverflowError` — one of the
uncaught crash paths recorded under the C1 verdict, which this total
model folds into the failed test. -/
def valueDblMatcher (s : Bytes) : Option (Option Rat × Nat) :=
  if matchSeq (litP valueDblTag) s then
    if s.length ≥ 16 then some (decodeF64BE ((s.drop 8).take 8), 16) else none
  else none

/-- Loop of `_extract_sends` over `Volume\x00` hits: decode the volume,
pair it with the first `Output\x00` after it, resolve the UID through the
bus table (discarding uid 0 and unknown uids), stop after the 8th slot. -/
def sendSlotsGo (bus_table : List (Nat × String)) (send_region : Bytes) (outs : List Nat) :
    List Nat → List SendSlot → List SendSlot
  | [], acc => acc
  | volPos :: rest, acc =>
    let vol_area := (send_region.drop volPos).take 40
    match searchM valueDblMatcher vol_area with
    | none => sendSlotsGo bus_table send_region outs rest acc
    | some dm =>
      let vol : Rat := (dm.2).getD 0
      let uid : Nat := match outs.find? (fun op => decide (op > volPos)) with
        | some op =>
          match searchM valueUidMatcher ((send_region.drop op).take 40) with
          | some um => um.2
          | none => 0
        | none => 0
      match List.lookup uid bus_table with
      | none => sendSlotsGo bus_table send_region outs rest acc
      | some nm =>
        if uid == 0 then sendSlotsGo bus_table send_region outs rest acc
        else
          let acc1 := acc ++ [{ target_name := nm, level_raw := vol, enabled := true }]
          if acc1.length ≥ 8 then acc1
          else sendSlotsGo bus_table send_region outs rest acc1

/-- Per-track body of `_extract_sends`. -/
def extractSendsTrack (bus_table : List (Nat × String)) (region : Bytes) (t : Track) :
    Track :=
  match findLit sendFolderTag region with
  | none => t
  | some sf =>
    let send_region := (region.drop sf).take 10240
    let vols := litPositions volumeTag send_region
    let outs := litPositions outputTag send_region
    { t with sends := sendSlotsGo bus_table send_region outs vols t.sends }

/-- Embedding of `CprParser._extract_sends` (same regions as routing). -/
def extractSends (bus_table : List (Nat × String)) (data : Bytes)
    (positioned : List (Track × Nat)) : List (Track × Nat) :=
  (withNextPos (sortByPos positioned)).map (fun tpn =>
    let strip := tpn.1.2
    let nextP := tpn.2.getD (strip + 200000)
    let region := (data.drop strip).take (min nextP (strip + 200000) - strip)
    (extractSendsTrack bus_table region tpn.1.1, strip))

-- ── Audio per track (CprParser._extract_audio_per_track) ─────────────────

/-- The literal `Pool\x00`. -/
def poolTag : Bytes := ascii "Pool" ++ [0]

/-- Embedding of `CprParser._extract_audio_per_track`: per-track `.wav`
scan between strip positions, excluded past the Pool marker. -/
def extractAudioPerTrack (data : Bytes) (positioned : List (Track × Nat)) :
    List (Track × Nat) :=
  let pool := (findLit poolTag data).getD data.length
  (withNextPos (sortByPos positioned)).map (fun tpn =>
    let strip := tpn.1.2
    if strip ≥ pool then tpn.1
    else
      let nextP := tpn.2.getD pool
      let region := (data.drop strip).take (min nextP pool - strip)
      let files := (scanMatches wavNulMatcher 0 region).foldl (fun acc pc =>
        let nm := pyStrip (decodeUtf8 pc.2)
        if nm.length > 4 && !acc.contains nm then acc ++ [nm] else acc) []
      ({ tpn.1.1 with audio_files := files }, strip))

-- ── Postprocess (CprParser._postprocess) ─────────────────────────────────

/-- Embedding of `_is_binary_artifact`. -/
def BINARY_ARTIFACTS : List String :=
  ["aLoC", "daPN", "shtE", "DILT", "braF", "dpxE", "oloS",
   "sklC", "iCVT", "BuTT", "BlTT", "kcoL", "adcn", "Pler", "GLFX",
   "TDRH", "IVffO", "CmArray", "CmContainer", "BaSE", "mAsT"]

/-- Artifact-name test. -/
def isBinaryArtifact (nm : String) : Bool := BINARY_ARTIFACTS.contains nm

/-- Embedding of the helper `_track_score`. -/
def trackScore (t : Track) : Nat :=
  t.plugins.foldl (fun acc p =>
    acc + p.eq_bands.length + p.parameters.length + (if p.compressor.isSome then 2 else 0))
    t.plugins.length

/-- Step 1 of `_postprocess`: drop self-reference plugins. -/
def dropSelfRefPlugins (t : Track) : Track :=
  { t with plugins := t.plugins.filter (fun p => strToLower p.name != strToLower t.name) }

/-- Step 2 of `_postprocess`: the `best_by_name` dict fold (replace on a
strictly better score; merge plugin lists on a positive tie, skipping
names already present — the name set is captured before the merge, as in
the source). -/
def mergeDupGo : List Track → List (String × Track) → List (String × Track)
  | [], best => best
  | t :: rest, best =>
    match List.lookup t.name best with
    | none => mergeDupGo rest (best ++ [(t.name, t)])
    | some ex =>
      let es := trackScore ex
      let ns := trackScore t
      if ns > es then mergeDupGo rest (dictSet best t.name t)
      else if ns == es && ns > 0 then
        let en := ex.plugins.map (fun p => p.name)
        let keep := t.plugins.filter (fun p => !(en.contains p.name))
        let merged := { ex with plugins := ex.plugins ++ keep }
        mergeDupGo rest (dictSet best t.name merged)
      else mergeDupGo rest best

/-- Values of the `best_by_name` dict in key-insertion order. -/
def mergeDupTracks (tracks : List Track) : List Track :=
  (mergeDupGo tracks []).map Prod.snd

/-- Step 3 of `_postprocess`: artifact filtering. -/
def filterArtifacts (tracks : List Track) : List Track :=
  tracks.filter (fun t =>
    anyAlpha t.name && !(t.name.length < 3 && t.plugins.isEmpty) &&
      !isBinaryArtifact t.name)

/-- Step 4a of `_postprocess`: content flag. -/
def setHasContent (t : Track) : Track :=
  if !t.audio_files.isEmpty then { t with has_content := true }
  else if t.track_type == .instrument || t.track_type == .midi then
    { t with has_content := true }
  else if t.track_type == .group || t.track_type == .fx || t.track_type == .master then
    { t with has_content := true }
  else t

/-- Step 4b of `_postprocess`: drop tracks with neither content nor
plugins. -/
def contentFiltered (tracks : List Track) : List Track :=
  (tracks.map setHasContent).filter (fun t => t.has_content || !t.plugins.isEmpty)

/-- Step 5 of `_postprocess`: contiguous 0-based reindexing of tracks and
plugin slots. -/
def reindexTracks (tracks : List Track) : List Track :=
  mapIdxGo (fun i t =>
    let ps := mapIdxGo (fun j p => { p with slot_index := j }) 0 t.plugins
    { t with index := i, plugins := ps }) 0 tracks

/-- Embedding of `CprParser._postprocess`. -/
def postprocess (tracks : List Track) : List Track :=
  reindexTracks (contentFiltered (filterArtifacts (mergeDupTracks
    (tracks.map dropSelfRefPlugins))))

-- ── Pipeline (CprParser.parse) ───────────────────────────────────────────

/-- Embedding of `CprParser.parse` after the buffer has been read into
memory: the stages run in source order, threading the positioned tracks
(the source mutates shared `Track` objects; here each stage returns the
updated pairs). `stem` is `path.stem`. -/
def parseCpr (stem : String) (data : Bytes) : CubaseProject :=
  let positioned0 := extractTracks data
  let refs := extractAudioReferences data
  let ps := extractPlugins data positioned0
  let markers := extractMarkers data
  let bus_table := buildBusUidTable data
  let positioned := extractAudioPerTrack data
    (extractSends bus_table data (extractRouting bus_table data ps.1))
  { project_name := stem,
    cubase_version := extractVersion data,
    sample_rate := extractSampleRate data,
    tempo := extractTempo data,
    tracks := postprocess (positioned.map Prod.fst ++ ps.2),
    markers := markers,
    referenced_audio := refs,
    file_size := data.length }

-- ── Claim-statement helpers ──────────────────────────────────────────────

/-- Scoring formula as worded by the specification claim about plugin
deduplication (band count + parameter count + 2 if a compressor is
present). This follows the claim text, to be compared against the
source-derived `pluginScore`; the two differ in the compressor weight. -/
def claimRichness (p : PluginInstance) : Nat :=
  p.eq_bands.length + p.parameters.length + (if p.compressor.isSome then 2 else 0)

/-- Every numeric value readable off a `PluginInstance` (generic
parameters, band fields, compressor fields, raw provenance values): the
claim that no raw value is silently discarded says each raw input number
remains among these. -/
def retainedNumbers (p : PluginInstance) : List Rat :=
  p.parameters.map Prod.snd ++
    p.eq_bands.foldr (fun b acc => b.frequency :: b.gain :: b.q :: acc) [] ++
    (match p.compressor with
     | some c =>
       [c.threshold, c.ratio, c.attack, c.release, c.knee, c.makeup_gain,
        c.input_gain, c.output_gain] ++
         c.raw_parameters.filterMap (fun kv =>
           match kv.2 with
           | RawPVal.num v => some v
           | RawPVal.str _ => none)
     | none => [])

/-- The track the no-positions branch of plugin assignment synthesizes: a
Master track at index 0 holding the given plugins with contiguous slot
indices. -/
def masterTrackWithSlots (ps : List PluginInstance) : Track :=
  { name := "Master", track_type := .master, index := 0,
    plugins := mapIdxGo (fun i p => { p with slot_index := i }) 0 ps }

/-- A track whose send slots respect the claimed invariant: at most 8, and
every slot's target resolves through the bus table from a nonzero
identifier. -/
def ResolvedSends (table : List (Nat × String)) (t : Track) : Prop :=
  t.sends.length ≤ 8 ∧
    ∀ s ∈ t.sends, ∃ uid, uid ≠ 0 ∧ List.lookup uid table = some s.target_name

-- ═══ Theorems ═══

-- ── Zero-buffer lemmas (the spine of the empty/NUL-buffer claims) ─────────

theorem matchSeq_zero {ps : List (Nat → Bool)} :
    ∀ {s : Bytes}, (∀ b ∈ s, b = 0) → matchSeq ps s = true → ∀ p ∈ ps, p 0 = true := by
  induction ps with
  | nil => intro s _ _ p hp; simp at hp
  | cons q qs ih =>
    intro s hz hm p hp
    cases s with
    | nil => simp [matchSeq] at hm
    | cons b bs =>
      have hb : b = 0 := hz b (by simp)
      simp [matchSeq] at hm
      rcases List.mem_cons.mp hp with h | h
      · subst h; rw [← hb]; exact hm.1
      · exact ih (fun x hx => hz x (by simp [hx])) hm.2 p h

theorem matchSeq_litP_zero {pat : Bytes} {c : Nat} (hc : c ∈ pat) (hc0 : c ≠ 0)
    {s : Bytes} (hz : ∀ b ∈ s, b = 0) : matchSeq (litP pat) s = false := by
  by_contra h
  have hmem : (fun b => b == c) ∈ litP pat := List.mem_map.mpr ⟨c, hc, rfl⟩
  have := matchSeq_zero hz (by simpa using h) _ hmem
  simp at this
  exact hc0 this.symm

theorem scanMatchesF_eq_nil {α : Type} (m : Bytes → Option (α × Nat))
    (hm : ∀ s : Bytes, (∀ b ∈ s, b = 0) → m s = none) :
    ∀ (fuel : Nat) (data : Bytes), (∀ b ∈ data, b = 0) → ∀ i, scanMatchesF m fuel i data = [] := by
  intro fuel
  induction fuel with
  | zero => intro data _ i; simp [scanMatchesF]
  | succ n ih =>
    intro data hz i
    cases data with
    | nil => simp [scanMatchesF]
    | cons b bs =>
      have h0 : m (b :: bs) = none := hm _ hz
      rw [scanMatchesF, h0]
      exact ih bs (fun x hx => hz x (by simp [hx])) (i + 1)

theorem scanMatches_eq_nil {α : Type} (m : Bytes → Option (α × Nat))
    (hm : ∀ s : Bytes, (∀ b ∈ s, b = 0) → m s = none)
    (data : Bytes) (hz : ∀ b ∈ data, b = 0) (i : Nat) : scanMatches m i data = [] :=
  scanMatchesF_eq_nil m hm (data.length + 1) data hz i

theorem findLitFrom_eq_none {pat : Bytes} {c : Nat} (hc : c ∈ pat) (hc0 : c ≠ 0) :
    ∀ (data : Bytes), (∀ b ∈ data, b = 0) → ∀ i, findLitFrom pat i data = none := by
  intro data
  induction data with
  | nil =>
    intro _ i
    simp only [findLitFrom]
    rw [matchSeq_litP_zero hc hc0 (by simp)]
    rfl
  | cons b bs ih =>
    intro hz i
    simp only [findLitFrom]
    rw [matchSeq_litP_zero hc hc0 hz]
    simpa using ih (fun x hx => hz x (by simp [hx])) (i + 1)

theorem findLit_eq_none {pat : Bytes} {c : Nat} (hc : c ∈ pat) (hc0 : c ≠ 0)
    {data : Bytes} (hz : ∀ b ∈ data, b = 0) : findLit pat data = none :=
  findLitFrom_eq_none hc hc0 data hz 0

theorem runLen_zero {cls : Nat → Bool} (hcls : cls 0 = false)
    {s : Bytes} (hz : ∀ b ∈ s, b = 0) : runLen cls s = 0 := by
  cases s with
  | nil => simp [runLen]
  | cons b bs =>
    have hb : b = 0 := hz b (by simp)
    subst hb
    simp [runLen, List.takeWhile, hcls]

-- ── C1 ───────────────────────────────────────────────────────────────────
-- C1 (never-raises totality) is a bug of the program, not a theorem: a
-- buffer containing `PresetChunkXMLTree>` then `<PluginName>Pro-Q 3`
-- `</PluginName>` then `<p name="Band 1 Shape" value="nan">` reaches the
-- attribute-parameter fallback of `_index_preset_chunk_data`, where
-- `float("nan")` succeeds (no ValueError is raised, so the except clause
-- does not fire) and NaN is stored as a parameter; the non-empty dict
-- sends the plugin through `interpret_plugin_parameters`, whose name
-- dispatch on the `pro-q` substring runs `_interpret_proq`, and its
-- `int(shape)` on NaN raises an uncaught ValueError (`inf` raises
-- OverflowError) that propagates out of `CprParser.parse`. The same class
-- of crash exists on a positive-infinity send volume (see
-- `valueDblMatcher`). `parseCpr` stays a total function of the finite
-- fragment, so no totality theorem is claimed; the faithful `parseFloat?`
-- above records where the non-finite parses arise.

-- ── C9 ───────────────────────────────────────────────────────────────────

/-- C9: the pipeline is a deterministic function of its input: running it
twice on the same buffer (same path stem) yields identical Project output
in every field and order. In the embedding the pipeline is a pure
function, so equal inputs give equal outputs; the source has no hidden
input (its only set, `referenced_audio`, is compared as a set, and every
ordered field is built by deterministic scans). -/
theorem c9_deterministic (stem : String) (d1 d2 : Bytes) (h : d1 = d2) :
    parseCpr stem d1 = parseCpr stem d2 := by rw [h]

/-- Witness for C9 at a concrete buffer. -/
theorem c9_deterministic_witness :
    parseCpr "p" [1, 2, 3] = parseCpr "p" [1, 2, 3] :=
  c9_deterministic "p" [1, 2, 3] [1, 2, 3] rfl

-- ── C5 ───────────────────────────────────────────────────────────────────

/-- C5: two same-named channel-strip captures collapse to the first when
their offsets differ by less than 40000 bytes, and stay two distinct
tracks at 40001 bytes or more apart. -/
theorem c5_strip_dedup_window (t1 t2 : Track) (p1 p2 : Nat)
    (hname : t1.name = t2.name) (hle : p1 ≤ p2) :
    (p2 - p1 < 40000 → dedupStrips [(t1, p1), (t2, p2)] = [(t1, p1)]) ∧
    (40001 ≤ p2 - p1 → dedupStrips [(t1, p1), (t2, p2)] = [(t1, p1), (t2, p2)]) := by
  have hsort : sortByPos [(t1, p1), (t2, p2)] = [(t1, p1), (t2, p2)] := by
    simp [sortByPos, insertByPos, Nat.not_lt.mpr hle]
  constructor
  · intro hlt
    simp [dedupStrips, hsort, dedupStripsGo, List.lookup, hname, hlt]
  · intro hge
    have hnlt : ¬ (p2 - p1 < 40000) := by omega
    simp [dedupStrips, hsort, dedupStripsGo, List.lookup, hname, hnlt, dictSet]

/-- Witness for C5: both windows at concrete inputs. -/
theorem c5_strip_dedup_window_witness :
    dedupStrips [(({ name := "Git" } : Track), 0), (({ name := "Git" } : Track), 100)] =
      [(({ name := "Git" } : Track), 0)] ∧
    dedupStrips [(({ name := "Git" } : Track), 0), (({ name := "Git" } : Track), 50000)] =
      [(({ name := "Git" } : Track), 0), (({ name := "Git" } : Track), 50000)] :=
  ⟨(c5_strip_dedup_window _ _ 0 100 rfl (by decide)).1 (by decide),
   (c5_strip_dedup_window _ _ 0 50000 rfl (by decide)).2 (by decide)⟩

-- ── C4 ───────────────────────────────────────────────────────────────────

/-- C4 counterexample: two same-named entries 100 bytes apart whose
claim-richness (band count + parameter count + 2 per compressor) ties, so
the claim says the earlier-offset entry is kept — but the code scores a
compressor as 1, sees 1 vs 2, and keeps the later entry. -/
theorem c4_counterexample :
    normalizePluginName ({ name := "CompA", compressor := some {} } : PluginInstance).name =
      normalizePluginName
        ({ name := "CompA", parameters := [("a", 1), ("b", 2)] } : PluginInstance).name ∧
    (100 : Nat) - 0 ≤ 20000 ∧
    claimRichness ({ name := "CompA", compressor := some {} } : PluginInstance) =
      claimRichness ({ name := "CompA", parameters := [("a", 1), ("b", 2)] } : PluginInstance) ∧
    dedupPlugins
        [(({ name := "CompA", compressor := some {} } : PluginInstance), 0),
         (({ name := "CompA", parameters := [("a", 1), ("b", 2)] } : PluginInstance), 100)] =
      [(({ name := "CompA", parameters := [("a", 1), ("b", 2)] } : PluginInstance), 100)] ∧
    (({ name := "CompA", parameters := [("a", 1), ("b", 2)] } : PluginInstance), (100 : Nat)) ≠
      (({ name := "CompA", compressor := some {} } : PluginInstance), (0 : Nat)) := by
  refine ⟨rfl, by omega, rfl, ?_, by decide⟩
  decide

/-- C4 amended: of two entries with matching normalized names at most
20000 bytes apart, deduplication keeps the one with the higher richness
score where richness is parameter count + band count + 1 if a compressor
is present (the code weight), and on a tied score the earlier-offset
entry. -/
theorem c4_plugin_dedup_amended (q1 q2 : PluginInstance) (n1 n2 : Nat)
    (hle : n1 ≤ n2) (hgap : n2 - n1 ≤ 20000)
    (hname : normalizePluginName q1.name = normalizePluginName q2.name) :
    dedupPlugins [(q1, n1), (q2, n2)] =
      if pluginScore q1 < pluginScore q2 then [(q2, n2)] else [(q1, n1)] := by
  have hsort : sortByPos [(q1, n1), (q2, n2)] = [(q1, n1), (q2, n2)] := by
    simp [sortByPos, insertByPos, Nat.not_lt.mpr hle]
  have hngap : ¬ (n2 - n1 > 20000) := by omega
  simp only [dedupPlugins, hsort]
  simp [dedupPluginsGoF, dedupGroup, hngap, hname]
  split <;> simp [dedupPluginsGoF]

/-- Witness for C4 amended at concrete entries. -/
theorem c4_plugin_dedup_amended_witness :
    dedupPlugins
        [(({ name := "CompB", compressor := some {} } : PluginInstance), 5),
         (({ name := "CompB", parameters := [("a", 1), ("b", 2)] } : PluginInstance), 30)] =
      if pluginScore ({ name := "CompB", compressor := some {} } : PluginInstance) <
          pluginScore ({ name := "CompB", parameters := [("a", 1), ("b", 2)] } : PluginInstance)
      then [(({ name := "CompB", parameters := [("a", 1), ("b", 2)] } : PluginInstance), 30)]
      else [(({ name := "CompB", compressor := some {} } : PluginInstance), 5)] :=
  c4_plugin_dedup_amended _ _ 5 30 (by decide) (by decide) rfl

-- ── C10 ──────────────────────────────────────────────────────────────────

/-- Chains built by repeated `appendPlugin` are the input plugins stamped
with contiguous slot indices starting at the current chain length. -/
theorem foldl_appendPlugin (ps : List PluginInstance) :
    ∀ t : Track, ps.foldl appendPlugin t =
      { t with plugins := t.plugins ++
          mapIdxGo (fun i p => { p with slot_index := i }) t.plugins.length ps } := by
  induction ps with
  | nil => intro t; simp [mapIdxGo]
  | cons p ps ih =>
    intro t
    rw [List.foldl_cons, ih (appendPlugin t p)]
    simp [appendPlugin, mapIdxGo]

/-- C10: when plugin evidence exists but no track positions were located
(no channel strips, no legacy markers — the positioned list and the
project track list are both empty), the parser synthesizes a single
Master track at index 0 and appends every surviving plugin to it in list
(offset) order with contiguous slot indices. -/
theorem c10_synthesized_master (plugins : List (PluginInstance × Nat))
    (h : plugins ≠ []) :
    assignPluginsToTracks [] plugins =
      ([], [masterTrackWithSlots (plugins.map Prod.fst)]) := by
  have hne : plugins.isEmpty = false := by
    cases plugins with
    | nil => exact absurd rfl h
    | cons a l => rfl
  simp only [assignPluginsToTracks, List.isEmpty_nil, hne]
  simp only [Bool.true_or, if_true, Bool.not_false, Bool.and_true, if_pos rfl]
  have hfold : defaultMasterWith plugins =
      masterTrackWithSlots (plugins.map Prod.fst) := by
    have h1 : defaultMasterWith plugins =
        (plugins.map Prod.fst).foldl appendPlugin
          { name := "Master", track_type := .master, index := 0 } := by
      rw [List.foldl_map]
      rfl
    rw [h1, foldl_appendPlugin]
    rfl
  rw [hfold]

/-- Witness for C10 at a concrete plugin list. -/
theorem c10_synthesized_master_witness :
    assignPluginsToTracks []
        [(({ name := "VerbX" } : PluginInstance), 5),
         (({ name := "CompY" } : PluginInstance), 9000)] =
      ([], [masterTrackWithSlots
        [({ name := "VerbX" } : PluginInstance), ({ name := "CompY" } : PluginInstance)]]) :=
  c10_synthesized_master _ (by decide)

-- ── C6 ───────────────────────────────────────────────────────────────────

/-- C6 counterexample: a record named "Master" — not "Stereo Out" — after
a gap of more than 1,000,000 bytes is retained by the I/O filter, while
the claim says every name other than exactly "Stereo Out" is dropped
there. -/
theorem c6_counterexample :
    (2000000 : Nat) - 0 > 1000000 ∧
    ({ name := "Master" } : Track).name ≠ "Stereo Out" ∧
    filterIoSection
        [(({ name := "GuitarBus" } : Track), 0), (({ name := "Master" } : Track), 2000000)] =
      [(({ name := "GuitarBus" } : Track), 0), (({ name := "Master" } : Track), 2000000)] := by
  refine ⟨by omega, by decide, ?_⟩
  decide

/-- C6 amended: after a >1,000,000-byte gap between consecutive records,
a record whose lower-cased name is "stereo out", "master" or "main out"
is retained and classified Master (for any IDString evidence); a record
with any other name is dropped. -/
theorem c6_io_gap_amended (ids : List (Nat × String)) (t1 t2 : Track) (p1 p2 : Nat)
    (hgap : 1000000 < p2 - p1) :
    (strToLower t2.name ∈ masterNames →
      filterIoSection [(t1, p1), (t2, p2)] = [(t1, p1), (t2, p2)] ∧
      (classifyByIdstring ids (filterIoSection [(t1, p1), (t2, p2)])).get? 1 =
        some ({ t2 with track_type := .master }, p2)) ∧
    (strToLower t2.name ∉ masterNames →
      filterIoSection [(t1, p1), (t2, p2)] = [(t1, p1)]) := by
  have hgap2 : p2 - p1 > 1000000 := hgap
  constructor
  · intro hm
    have hfil : filterIoSection [(t1, p1), (t2, p2)] = [(t1, p1), (t2, p2)] := by
      simp [filterIoSection, firstGapIdx, hgap2, hm]
    refine ⟨hfil, ?_⟩
    rw [hfil]
    by_cases hids : ids.isEmpty
    · simp [classifyByIdstring, hids, classifyTrackType, hm]
    · simp [classifyByIdstring, hids, classifyStrip, hm]
  · intro hm
    simp [filterIoSection, firstGapIdx, hgap2, hm]

/-- Witness for C6 amended: a retained "Master" record classified Master,
and a dropped "Drums" record, after a 2,000,000-byte gap. -/
theorem c6_io_gap_amended_witness :
    (filterIoSection [(({ name := "Kick" } : Track), 0), (({ name := "Master" } : Track), 2000000)] =
      [(({ name := "Kick" } : Track), 0), (({ name := "Master" } : Track), 2000000)] ∧
     (classifyByIdstring [] (filterIoSection
        [(({ name := "Kick" } : Track), 0), (({ name := "Master" } : Track), 2000000)])).get? 1 =
       some (({ name := "Master", track_type := .master } : Track), 2000000)) ∧
    filterIoSection [(({ name := "Kick" } : Track), 0), (({ name := "Drums" } : Track), 2000000)] =
      [(({ name := "Kick" } : Track), 0)] :=
  ⟨(c6_io_gap_amended [] _ _ 0 2000000 (by omega)).1 (by decide),
   (c6_io_gap_amended [] _ _ 0 2000000 (by omega)).2 (by decide)⟩

-- ── C2: zero-buffer stage lemmas ─────────────────────────────────────────

theorem litMatcher_zero {pat : Bytes} {c : Nat} (hc : c ∈ pat) (hc0 : c ≠ 0) :
    ∀ s : Bytes, (∀ b ∈ s, b = 0) → litMatcher pat s = none := by
  intro s hz
  simp only [litMatcher]
  rw [matchSeq_litP_zero hc hc0 hz]
  rfl

theorem litPositions_zero {pat : Bytes} {c : Nat} (hc : c ∈ pat) (hc0 : c ≠ 0)
    {data : Bytes} (hz : ∀ b ∈ data, b = 0) : litPositions pat data = [] := by
  simp only [litPositions]
  rw [scanMatches_eq_nil _ (litMatcher_zero hc hc0) data hz]
  rfl

theorem stripMatcher_zero : ∀ s : Bytes, (∀ b ∈ s, b = 0) → stripMatcher s = none := by
  intro s hz
  simp only [stripMatcher]
  rw [matchSeq_litP_zero (c := 78) (by decide) (by decide) hz]
  rfl

theorem extractChannelStrips_zero {data : Bytes} (hz : ∀ b ∈ data, b = 0) :
    extractChannelStrips data = [] := by
  simp only [extractChannelStrips]
  rw [scanMatches_eq_nil _ stripMatcher_zero data hz]
  rfl

theorem legacyRaw_fold_zero {data : Bytes} (hz : ∀ b ∈ data, b = 0) :
    ∀ (ms : List (Bytes × String)) (acc : List ((String × Bytes) × Nat)),
      (∀ m ∈ ms, ∃ c ∈ m.1, c ≠ 0) →
      ms.foldl (fun acc mt => acc ++ (litPositions mt.1 data).map (fun p => ((mt.2, mt.1), p)))
        acc = acc := by
  intro ms
  induction ms with
  | nil => intro acc _; rfl
  | cons m rest ih =>
    intro acc hm
    obtain ⟨c, hc, hc0⟩ := hm m (by simp)
    rw [List.foldl_cons, litPositions_zero hc hc0 hz]
    simpa using ih acc (fun x hx => hm x (by simp [hx]))

theorem legacyRaw_zero {data : Bytes} (hz : ∀ b ∈ data, b = 0) : legacyRaw data = [] := by
  simp only [legacyRaw]
  rw [legacyRaw_fold_zero hz TRACK_MARKERS [] (by decide)]
  rfl

theorem extractTracks_zero {data : Bytes} (hz : ∀ b ∈ data, b = 0) :
    extractTracks data = [] := by
  simp only [extractTracks]
  rw [extractChannelStrips_zero hz, legacyRaw_zero hz]
  rfl

theorem extractVst3Plugins_zero {data : Bytes} (hz : ∀ b ∈ data, b = 0)
    (chunks : List (Nat × PluginInstance)) : extractVst3Plugins data chunks = [] := by
  simp only [extractVst3Plugins]
  rw [litPositions_zero (c := 80) (by decide) (by decide) hz]
  rfl

theorem extractPlugins_zero {data : Bytes} (hz : ∀ b ∈ data, b = 0) :
    extractPlugins data [] = ([], []) := by
  simp only [extractPlugins]
  rw [extractVst3Plugins_zero hz]
  rfl

theorem extractMarkers_zero {data : Bytes} (hz : ∀ b ∈ data, b = 0) :
    extractMarkers data = [] := by
  simp only [extractMarkers]
  rw [litPositions_zero (c := 77) (by decide) (by decide) hz]
  rfl

theorem extractSampleRateGo_zero {data : Bytes} (hz : ∀ b ∈ data, b = 0) :
    ∀ ms : List Bytes, (∀ m ∈ ms, ∃ c ∈ m, c ≠ 0) → extractSampleRateGo data ms = 44100 := by
  intro ms
  induction ms with
  | nil => intro _; rfl
  | cons m rest ih =>
    intro hm
    obtain ⟨c, hc, hc0⟩ := hm m (by simp)
    unfold extractSampleRateGo
    rw [findLit_eq_none hc hc0 hz]
    exact ih (fun x hx => hm x (by simp [hx]))

theorem extractSampleRate_zero {data : Bytes} (hz : ∀ b ∈ data, b = 0) :
    extractSampleRate data = 44100 :=
  extractSampleRateGo_zero hz SR_MARKERS (by decide)

theorem extractTempoGo_zero {data : Bytes} (hz : ∀ b ∈ data, b = 0) :
    ∀ ms : List Bytes, (∀ m ∈ ms, ∃ c ∈ m, c ≠ 0) → extractTempoGo data ms = 120 := by
  intro ms
  induction ms with
  | nil => intro _; rfl
  | cons m rest ih =>
    intro hm
    obtain ⟨c, hc, hc0⟩ := hm m (by simp)
    unfold extractTempoGo
    rw [findLit_eq_none hc hc0 hz]
    exact ih (fun x hx => hm x (by simp [hx]))

theorem extractTempo_zero {data : Bytes} (hz : ∀ b ∈ data, b = 0) :
    extractTempo data = 120 :=
  extractTempoGo_zero hz TEMPO_MARKERS (by decide)

/-- C2: a buffer of zero bytes or of only NUL bytes decodes to a Project
with zero tracks, zero markers, default sample rate 44100, default tempo
120.0, and file size equal to the input length. -/
theorem c2_nul_buffer_defaults (stem : String) (data : Bytes)
    (h : data = [] ∨ ∀ b ∈ data, b = 0) :
    (parseCpr stem data).tracks = [] ∧ (parseCpr stem data).markers = [] ∧
    (parseCpr stem data).sample_rate = 44100 ∧ (parseCpr stem data).tempo = 120 ∧
    (parseCpr stem data).file_size = data.length := by
  have hz : ∀ b ∈ data, b = 0 := by
    rcases h with h | h
    · subst h; intro b hb; simp at hb
    · exact h
  refine ⟨?_, ?_, ?_, ?_, ?_⟩ <;> simp only [parseCpr]
  · rw [extractTracks_zero hz, extractPlugins_zero hz]
    rfl
  · rw [extractMarkers_zero hz]
  · rw [extractSampleRate_zero hz]
  · rw [extractTempo_zero hz]

-- ── C3 support lemmas ────────────────────────────────────────────────────

theorem lookup_mapRepl (k : String) (v : Rat) :
    ∀ d : List (String × Rat), d.any (fun e => e.1 == k) = true →
      List.lookup k (d.map (fun e => if e.1 == k then (k, v) else e)) = some v := by
  intro d
  induction d with
  | nil => intro h; simp at h
  | cons e rest ih =>
    intro hany
    obtain ⟨e1, e2⟩ := e
    by_cases he : (e1 == k) = true
    · have he2 : e1 = k := by simpa using he
      simp [List.lookup_cons, he2]
    · have hef : (e1 == k) = false := by simpa using he
      have hnf : ¬ e1 = k := by simpa using hef
      have hke : (k == e1) = false := by
        simp only [beq_eq_false_iff_ne, ne_eq]
        intro hh
        exact hnf hh.symm
      have hr : rest.any (fun e => e.1 == k) = true := by
        simp only [List.any_cons, hef, Bool.false_or] at hany
        exact hany
      have htail := ih hr
      simpa [List.lookup_cons, hnf, hke] using htail

theorem lookup_append_self (k : String) (v : Rat) :
    ∀ d : List (String × Rat), d.any (fun e => e.1 == k) = false →
      List.lookup k (d ++ [(k, v)]) = some v := by
  intro d
  induction d with
  | nil => intro _; simp [List.lookup_cons]
  | cons e rest ih =>
    intro h
    obtain ⟨e1, e2⟩ := e
    simp only [List.any_cons, Bool.or_eq_false_iff] at h
    have hke : (k == e1) = false := by
      simp only [beq_eq_false_iff_ne, ne_eq]
      intro hh
      exact (by simpa using h.1 : ¬ e1 = k) hh.symm
    simp [List.lookup_cons, hke, ih h.2]

theorem lookup_dictSet_self (d : List (String × Rat)) (k : String) (v : Rat) :
    List.lookup k (dictSet d k v) = some v := by
  unfold dictSet
  split
  · next hany => exact lookup_mapRepl k v d hany
  · next hany => exact lookup_append_self k v d (Bool.eq_false_iff.mpr hany)

theorem lookup_mapRepl_other (k k2 : String) (v : Rat) (hke : (k2 == k) = false) :
    ∀ d : List (String × Rat),
      List.lookup k2 (d.map (fun e => if e.1 == k then (k, v) else e)) = List.lookup k2 d := by
  intro d
  induction d with
  | nil => rfl
  | cons e rest ih =>
    obtain ⟨e1, e2⟩ := e
    by_cases he : (e1 == k) = true
    · have he2 : e1 = k := by simpa using he
      subst he2
      simpa [List.lookup_cons, hke] using ih
    · have hef : (e1 == k) = false := by simpa using he
      have hnf : ¬ e1 = k := by simpa using hef
      by_cases hk2 : (k2 == e1) = true
      · simp [List.lookup_cons, hnf, hk2]
      · have hk2f : (k2 == e1) = false := by simpa using hk2
        simpa [List.lookup_cons, hnf, hk2f] using ih

theorem lookup_append_other (k k2 : String) (v : Rat) (hke : (k2 == k) = false) :
    ∀ d : List (String × Rat),
      List.lookup k2 (d ++ [(k, v)]) = List.lookup k2 d := by
  intro d
  induction d with
  | nil => simp [List.lookup_cons, hke]
  | cons e rest ih =>
    obtain ⟨e1, e2⟩ := e
    by_cases hk2 : (k2 == e1) = true
    · simp [List.lookup_cons, hk2]
    · have hk2f : (k2 == e1) = false := by simpa using hk2
      simp [List.lookup_cons, hk2f, ih]

theorem lookup_dictSet_other (d : List (String × Rat)) (k k2 : String) (v : Rat)
    (hne : k2 ≠ k) : List.lookup k2 (dictSet d k v) = List.lookup k2 d := by
  have hke : (k2 == k) = false := by simpa using hne
  unfold dictSet
  split
  · exact lookup_mapRepl_other k k2 v hke d
  · exact lookup_append_other k k2 v hke d

theorem genericNumberedGo_lookup_frozen (key : String) :
    ∀ (vs : List (Option Rat)) (k : Nat) (params : List (String × Rat)),
      (∀ j, j < vs.length → key ≠ "Param_" ++ toString (k + j)) →
      List.lookup key (genericNumberedGo params k vs) = List.lookup key params := by
  intro vs
  induction vs with
  | nil => intro k params _; rfl
  | cons w rest ih =>
    intro k params hfree
    have hshift : ∀ j, j < rest.length → key ≠ "Param_" ++ toString (k + 1 + j) := by
      intro j hj
      have := hfree (j + 1) (by simpa using Nat.succ_lt_succ hj)
      have e : k + (j + 1) = k + 1 + j := by omega
      rwa [e] at this
    cases w with
    | none => exact (ih (k + 1) params hshift)
    | some x =>
      rw [genericNumberedGo, ih (k + 1) _ hshift]
      exact lookup_dictSet_other params _ key x (by
        have := hfree 0 (by simp)
        simpa using this)

theorem genericNumberedGo_lookup_set :
    ∀ (vs : List (Option Rat)) (i k : Nat) (params : List (String × Rat)) (v : Rat),
      vs.get? i = some (some v) →
      (∀ j, j < vs.length → j ≠ i →
        ("Param_" ++ toString (k + i)) ≠ ("Param_" ++ toString (k + j))) →
      List.lookup ("Param_" ++ toString (k + i)) (genericNumberedGo params k vs) = some v := by
  intro vs
  induction vs with
  | nil => intro i k params v h _; simp at h
  | cons w rest ih =>
    intro i k params v hget hdist
    cases i with
    | zero =>
      have hw : w = some v := by simpa using hget
      subst hw
      rw [genericNumberedGo]
      have hfree : ∀ j, j < rest.length →
          ("Param_" ++ toString (k + 0)) ≠ ("Param_" ++ toString (k + 1 + j)) := by
        intro j hj
        have := hdist (j + 1) (by simpa using Nat.succ_lt_succ hj) (by omega)
        have e : k + (j + 1) = k + 1 + j := by omega
        rwa [e] at this
      rw [genericNumberedGo_lookup_frozen _ rest (k + 1) _ hfree]
      have e0 : k + 0 = k := by omega
      rw [e0]
      exact lookup_dictSet_self params _ v
    | succ n =>
      have hget2 : rest.get? n = some (some v) := by simpa using hget
      have hdist2 : ∀ j, j < rest.length → j ≠ n →
          ("Param_" ++ toString (k + 1 + n)) ≠ ("Param_" ++ toString (k + 1 + j)) := by
        intro j hj hjn
        have := hdist (j + 1) (by simpa using Nat.succ_lt_succ hj) (by omega)
        have e1 : k + (n + 1) = k + 1 + n := by omega
        have e2 : k + (j + 1) = k + 1 + j := by omega
        rwa [e1, e2] at this
      have e : k + (n + 1) = k + 1 + n := by omega
      rw [e]
      cases w with
      | none => exact ih n (k + 1) params v hget2 hdist2
      | some x =>
        rw [genericNumberedGo]
        exact ih n (k + 1) _ v hget2 hdist2

theorem paramKeys_distinct :
    ∀ i, i < 20 → ∀ j, j < 20 → j ≠ i →
      ("Param_" ++ toString i) ≠ ("Param_" ++ toString j) := by decide

theorem interpretSsl_params (p : PluginInstance) :
    (interpretSsl p).parameters = p.parameters := by
  simp only [interpretSsl]
  split <;> rfl

theorem interpretGenericEq_params (p : PluginInstance) :
    (interpretGenericEq p).parameters = p.parameters := by
  simp only [interpretGenericEq]
  split <;> rfl

theorem interpretGenericCompressor_params (p : PluginInstance) :
    (interpretGenericCompressor p).parameters = p.parameters := by
  simp only [interpretGenericCompressor]
  split <;> rfl

theorem interpretPluginParameters_params (p : PluginInstance) :
    (interpretPluginParameters p).parameters = p.parameters := by
  unfold interpretPluginParameters
  split
  · exact interpretSsl_params p
  · split
    · rfl
    · split
      · rfl
      · split
        · rfl
        · rw [interpretGenericCompressor_params, interpretGenericEq_params]

-- ── C3 ───────────────────────────────────────────────────────────────────

/-- C3 counterexample: in the numeric-vector path a raw value at vector
position 20 of an unknown (non-catalog) plugin is silently discarded —
the generic fallback stores only the first 20 positions — so it appears
in no generic parameter, band or compressor field of the result, contrary
to the claim that no raw value is discarded for unknown names. -/
theorem c3_counterexample :
    (List.replicate 20 (some (0 : Rat)) ++ [some (777 : Rat)]).get? 20 =
      some (some (777 : Rat)) ∧
    (777 : Rat) ∉ retainedNumbers
      (interpretRealworld { name := "XComp" } "XComp"
        (List.replicate 20 (some (0 : Rat)) ++ [some (777 : Rat)]) "") := by
  refine ⟨by decide, ?_⟩
  decide

/-- C3 amended: in the numeric-vector path, raw values are retained as
generic parameters (`Param_i`) for non-catalog plugin names and only for
vector positions 0..19 — every present value among those is stored under
its index key; positions from 20 on, and catalog-unmapped positions of
catalog names, may be discarded. In the named-key path no raw value is
lost: interpretation never removes entries from the generic parameter
dict. -/
theorem c3_interpreter_amended :
    (∀ (name preset : String) (values : List (Option Rat)) (i : Nat) (v : Rat),
      name ≠ "SSLEQ" → name ≠ "SSLChannel" → name ≠ "CLA-76" → name ≠ "CLA76" →
      name ≠ "CLA-2A" → name ≠ "CLA2A" → name ≠ "C1Comp" → name ≠ "DeEsser" →
      i < 20 → values.get? i = some (some v) →
      List.lookup ("Param_" ++ toString i)
        (interpretRealworld { name := name } name values preset).parameters = some v) ∧
    (∀ p : PluginInstance, (interpretPluginParameters p).parameters = p.parameters) := by
  constructor
  · intro name preset values i v h1 h2 h3 h4 h5 h6 h7 h8 hi hv
    have hb : ∀ s : String, name ≠ s → (name == s) = false := by
      intro s hs; simp [hs]
    simp only [interpretRealworld, hb _ h1, hb _ h2, hb _ h3, hb _ h4, hb _ h5,
      hb _ h6, hb _ h7, hb _ h8, Bool.or_self, Bool.false_or, if_false]
    simp only [genericNumberedParams]
    have hget : (values.take 20).get? i = some (some v) := by
      rw [List.get?_take hi]
      exact hv
    have hdist : ∀ j, j < (values.take 20).length → j ≠ i →
        ("Param_" ++ toString (0 + i)) ≠ ("Param_" ++ toString (0 + j)) := by
      intro j hj hji
      have hj20 : j < 20 := lt_of_lt_of_le hj (by simpa using List.length_take_le 20 values)
      simpa using paramKeys_distinct i hi j hj20 (by omega)
    have := genericNumberedGo_lookup_set (values.take 20) i 0 [] v hget hdist
    simpa using this
  · exact interpretPluginParameters_params

/-- Witness for C3 amended: a present value at position 2 of an unknown
plugin is retained under `Param_2`, and named-key interpretation keeps
the parameter dict intact. -/
theorem c3_interpreter_amended_witness :
    List.lookup ("Param_" ++ toString 2)
      (interpretRealworld { name := "XComp" } "XComp"
        [some 1, none, some 7] "").parameters = some 7 ∧
    (interpretPluginParameters { name := "Zed" }).parameters =
      ({ name := "Zed" } : PluginInstance).parameters :=
  ⟨c3_interpreter_amended.1 "XComp" "" [some 1, none, some 7] 2 7
      (by decide) (by decide) (by decide) (by decide) (by decide) (by decide)
      (by decide) (by decide) (by decide) (by decide),
   c3_interpreter_amended.2 { name := "Zed" }⟩

-- ── C7 support lemmas ────────────────────────────────────────────────────

theorem mapIdxGo_length {α β : Type} (f : Nat → α → β) :
    ∀ (k : Nat) (l : List α), (mapIdxGo f k l).length = l.length := by
  intro k l
  induction l generalizing k with
  | nil => rfl
  | cons x xs ih => simp [mapIdxGo, ih]

theorem mapIdxGo_get? {α β : Type} (f : Nat → α → β) :
    ∀ (l : List α) (k i : Nat), (mapIdxGo f k l).get? i = (l.get? i).map (f (k + i)) := by
  intro l
  induction l with
  | nil => intro k i; simp [mapIdxGo]
  | cons x xs ih =>
    intro k i
    cases i with
    | zero => simp [mapIdxGo]
    | succ n =>
      show (mapIdxGo f (k + 1) xs).get? n = ((x :: xs).get? (n + 1)).map (f (k + (n + 1)))
      rw [List.get?_cons_succ, ih (k + 1) n]
      have e : k + 1 + n = k + (n + 1) := by omega
      rw [e]

theorem getD_of_get? {α : Type} {l : List α} {i : Nat} {x : α} (d : α)
    (h : l.get? i = some x) : l.getD i d = x := by
  induction l generalizing i with
  | nil => simp at h
  | cons a as ih =>
    cases i with
    | zero => simp at h; simp [List.getD, h]
    | succ n =>
      rw [List.get?_cons_succ] at h
      simpa [List.getD] using ih h

theorem mapIdxGo_getD {α β : Type} (f : Nat → α → β) (l : List α) (i : Nat)
    (dα : α) (dβ : β) (hi : i < l.length) :
    (mapIdxGo f 0 l).getD i dβ = f i (l.getD i dα) := by
  have h1 : l.get? i = some (l.get ⟨i, hi⟩) := List.get?_eq_get hi
  have h2 : (mapIdxGo f 0 l).get? i = some (f i (l.get ⟨i, hi⟩)) := by
    rw [mapIdxGo_get? f l 0 i, h1]
    simp
  rw [getD_of_get? dβ h2, getD_of_get? dα h1]

theorem reindexTracks_spec (l : List Track) (i : Nat)
    (hi : i < (reindexTracks l).length) :
    ((reindexTracks l).getD i {}).index = i ∧
    ∀ j, j < ((reindexTracks l).getD i {}).plugins.length →
      (((reindexTracks l).getD i {}).plugins.getD j {}).slot_index = j := by
  have hlen : i < l.length := by
    simpa [reindexTracks, mapIdxGo_length] using hi
  simp only [reindexTracks]
  rw [mapIdxGo_getD _ l i ({} : Track) ({} : Track) hlen]
  refine ⟨rfl, ?_⟩
  intro j hj
  have hj2 : j < (l.getD i ({} : Track)).plugins.length := by
    simpa [mapIdxGo_length] using hj
  simp only []
  rw [mapIdxGo_getD _ _ j ({} : PluginInstance) ({} : PluginInstance) hj2]

/-- C7: in every Project produced by the completed pipeline, the i-th
track carries index i, and within every track the j-th plugin carries
slot index j (the final postprocessing step reindexes both). -/
theorem c7_contiguous_indices (stem : String) (data : Bytes) :
    ∀ i, i < (parseCpr stem data).tracks.length →
      ((parseCpr stem data).tracks.getD i {}).index = i ∧
      ∀ j, j < ((parseCpr stem data).tracks.getD i {}).plugins.length →
        (((parseCpr stem data).tracks.getD i {}).plugins.getD j {}).slot_index = j := by
  intro i hi
  simp only [parseCpr, postprocess] at hi ⊢
  exact reindexTracks_spec _ i hi

/-- Witness for C7: a buffer whose plugin evidence synthesizes a Master
track with one plugin; both reindexing clauses instantiated at 0. -/
theorem c7_contiguous_indices_witness :
    0 < (parseCpr "p" (ascii "Plugin Name" ++ [0] ++ ascii "CoolComp")).tracks.length ∧
    ((parseCpr "p" (ascii "Plugin Name" ++ [0] ++ ascii "CoolComp")).tracks.getD 0 {}).index = 0 ∧
    0 < ((parseCpr "p" (ascii "Plugin Name" ++ [0] ++ ascii "CoolComp")).tracks.getD 0 {}).plugins.length ∧
    (((parseCpr "p" (ascii "Plugin Name" ++ [0] ++ ascii "CoolComp")).tracks.getD 0 {}).plugins.getD 0 {}).slot_index = 0 :=
  ⟨by decide,
   (c7_contiguous_indices "p" (ascii "Plugin Name" ++ [0] ++ ascii "CoolComp") 0 (by decide)).1,
   by decide,
   (c7_contiguous_indices "p" (ascii "Plugin Name" ++ [0] ++ ascii "CoolComp") 0 (by decide)).2 0 (by decide)⟩

/-- Witness for C2 at a concrete NUL buffer. -/
theorem c2_nul_buffer_defaults_witness :
    (parseCpr "p" [0, 0, 0]).tracks = [] ∧ (parseCpr "p" [0, 0, 0]).markers = [] ∧
    (parseCpr "p" [0, 0, 0]).sample_rate = 44100 ∧ (parseCpr "p" [0, 0, 0]).tempo = 120 ∧
    (parseCpr "p" [0, 0, 0]).file_size = ([0, 0, 0] : Bytes).length :=
  c2_nul_buffer_defaults "p" [0, 0, 0] (Or.inr (by decide))

-- ── C8 support lemmas ────────────────────────────────────────────────────

theorem mem_mapIdxGo {α β : Type} (f : Nat → α → β) :
    ∀ (k : Nat) (l : List α) (x : β), x ∈ mapIdxGo f k l → ∃ i y, y ∈ l ∧ x = f i y := by
  intro k l
  induction l generalizing k with
  | nil => intro x hx; simp [mapIdxGo] at hx
  | cons a rest ih =>
    intro x hx
    simp only [mapIdxGo] at hx
    rcases List.mem_cons.mp hx with h | h
    · exact ⟨k, a, by simp, h⟩
    · obtain ⟨i, y, hy, hxy⟩ := ih (k + 1) x h
      exact ⟨i, y, by simp [hy], hxy⟩

theorem mem_insertByPos {α : Type} (x : α × Nat) :
    ∀ (l : List (α × Nat)) (z : α × Nat), z ∈ insertByPos x l → z = x ∨ z ∈ l := by
  intro l
  induction l with
  | nil => intro z hz; simp [insertByPos] at hz; exact Or.inl hz
  | cons y ys ih =>
    intro z hz
    simp only [insertByPos] at hz
    split at hz
    · rcases List.mem_cons.mp hz with h | h
      · exact Or.inr (by simp [h])
      · rcases ih z h with h1 | h1
        · exact Or.inl h1
        · exact Or.inr (by simp [h1])
    · rcases List.mem_cons.mp hz with h | h
      · exact Or.inl h
      · exact Or.inr h

theorem mem_sortByPos {α : Type} :
    ∀ (l : List (α × Nat)) (z : α × Nat), z ∈ sortByPos l → z ∈ l := by
  intro l
  induction l with
  | nil => intro z hz; simpa [sortByPos] using hz
  | cons x xs ih =>
    intro z hz
    simp only [sortByPos] at hz
    rcases mem_insertByPos x _ z hz with h | h
    · simp [h]
    · simp [ih z h]

theorem mem_dedupStripsGo :
    ∀ (l : List (Track × Nat)) (seen : List (String × Nat)) (tp : Track × Nat),
      tp ∈ dedupStripsGo l seen → tp ∈ l := by
  intro l
  induction l with
  | nil => intro seen tp h; simp [dedupStripsGo] at h
  | cons a rest ih =>
    intro seen tp h
    simp only [dedupStripsGo] at h
    split at h
    · split at h
      · exact List.mem_cons_of_mem _ (ih _ tp h)
      · rcases List.mem_cons.mp h with h1 | h1
        · simp [h1]
        · exact List.mem_cons_of_mem _ (ih _ tp h1)
    · rcases List.mem_cons.mp h with h1 | h1
      · simp [h1]
      · exact List.mem_cons_of_mem _ (ih _ tp h1)

theorem mem_filterIoSection (l : List (Track × Nat)) (tp : Track × Nat) :
    tp ∈ filterIoSection l → tp ∈ l := by
  intro h
  simp only [filterIoSection] at h
  split at h
  · exact h
  · split at h
    · exact h
    · rcases List.mem_append.mp h with h1 | h1
      · exact List.mem_of_mem_take h1
      · exact List.mem_of_mem_drop (List.mem_of_mem_filter h1)

theorem classifyStrip_sends (m : List (Nat × String)) (tp : Track × Nat) :
    (classifyStrip m tp).1.sends = tp.1.sends := by
  simp only [classifyStrip]
  repeat' split
  all_goals rfl

theorem setHasContent_sends (t : Track) : (setHasContent t).sends = t.sends := by
  simp only [setHasContent]
  repeat' split
  all_goals rfl

theorem classifyByIdstring_sends (ids : List (Nat × String)) (strips : List (Track × Nat)) :
    ∀ tp ∈ classifyByIdstring ids strips, ∃ tq ∈ strips, tp.1.sends = tq.1.sends := by
  intro tp htp
  simp only [classifyByIdstring] at htp
  split at htp
  · obtain ⟨tq, hq, rfl⟩ := List.mem_map.mp htp
    exact ⟨tq, hq, rfl⟩
  · obtain ⟨tq, hq, rfl⟩ := List.mem_map.mp htp
    exact ⟨tq, hq, classifyStrip_sends _ _⟩

theorem extractChannelStrips_sendsNil (data : Bytes) :
    ∀ tp ∈ extractChannelStrips data, tp.1.sends = [] := by
  intro tp htp
  simp only [extractChannelStrips, List.mem_filterMap] at htp
  obtain ⟨pa, _, hpa⟩ := htp
  split at hpa
  · cases hpa
  · cases hpa
    rfl

theorem legacyBuild_sendsNil (data : Bytes) :
    ∀ (l : List ((String × Bytes) × Nat)) (idx : Nat),
      ∀ tp ∈ legacyBuild data l idx, tp.1.sends = [] := by
  intro l
  induction l with
  | nil => intro idx tp htp; simp [legacyBuild] at htp
  | cons tm rest ih =>
    intro idx tp htp
    simp only [legacyBuild] at htp
    rcases List.mem_cons.mp htp with h | h
    · subst h; rfl
    · exact ih _ tp h

theorem extractTracks_sendsNil (data : Bytes) :
    ∀ tp ∈ extractTracks data, tp.1.sends = [] := by
  intro tp htp
  simp only [extractTracks] at htp
  split at htp
  · exact legacyBuild_sendsNil data _ _ tp htp
  · simp only [reindexPositioned] at htp
    obtain ⟨i, y, hy, rfl⟩ := mem_mapIdxGo _ _ _ _ htp
    show y.1.sends = []
    obtain ⟨tq, hq, hsq⟩ := classifyByIdstring_sends _ _ y hy
    rw [hsq]
    have h1 := mem_filterIoSection _ tq hq
    simp only [dedupStrips] at h1
    exact extractChannelStrips_sendsNil data tq
      (mem_sortByPos _ tq (mem_dedupStripsGo _ _ tq h1))

theorem mem_updateNth {α : Type} (l : List α) (i : Nat) (f : α → α) :
    ∀ x ∈ updateNth l i f, x ∈ l ∨ ∃ y ∈ l, x = f y := by
  intro x hx
  simp only [updateNth] at hx
  obtain ⟨j, y, hy, rfl⟩ := mem_mapIdxGo _ _ _ _ hx
  by_cases hj : (j == i) = true
  · right; exact ⟨y, hy, by simp [hj]⟩
  · left; simpa [hj] using hy

theorem assign_foldl_sendsNil :
    ∀ (ps : List (PluginInstance × Nat)) (acc : List (Track × Nat)),
      (∀ tp ∈ acc, tp.1.sends = []) →
      ∀ tp ∈ ps.foldl (fun acc pp =>
          updateNth acc (chooseIdx acc pp.2) (fun tp => (appendPlugin tp.1 pp.1, tp.2))) acc,
        tp.1.sends = [] := by
  intro ps
  induction ps with
  | nil => intro acc h tp htp; exact h tp htp
  | cons pp rest ih =>
    intro acc h tp htp
    rw [List.foldl_cons] at htp
    refine ih _ ?_ tp htp
    intro tq htq
    rcases mem_updateNth _ _ _ tq htq with h1 | ⟨y, hy, rfl⟩
    · exact h tq h1
    · exact h y hy

theorem sends_foldl_appendPlugin :
    ∀ (ps : List (PluginInstance × Nat)) (t : Track),
      (ps.foldl (fun t pp => appendPlugin t pp.1) t).sends = t.sends := by
  intro ps
  induction ps with
  | nil => intro t; rfl
  | cons p rest ih =>
    intro t
    rw [List.foldl_cons, ih]
    rfl

theorem extractPlugins_fst_sendsNil (data : Bytes) (pos : List (Track × Nat))
    (h : ∀ tp ∈ pos, tp.1.sends = []) :
    ∀ tp ∈ (extractPlugins data pos).1, tp.1.sends = [] := by
  intro tp htp
  simp only [extractPlugins, assignPluginsToTracks] at htp
  split at htp
  · split at htp
    · exact h tp htp
    · exact h tp htp
  · simp only [assignToPositioned] at htp
    exact assign_foldl_sendsNil _ _ (fun tq hq => h tq (mem_sortByPos _ tq hq)) tp htp

theorem extractPlugins_snd_sendsNil (data : Bytes) (pos : List (Track × Nat)) :
    ∀ t ∈ (extractPlugins data pos).2, t.sends = [] := by
  intro t ht
  simp only [extractPlugins, assignPluginsToTracks] at ht
  split at ht
  · split at ht
    · rcases List.mem_singleton.mp ht with rfl
      simp only [defaultMasterWith]
      rw [sends_foldl_appendPlugin]
    · simp at ht
  · simp at ht

theorem extractRoutingTrack_sends (bt : List (Nat × String)) (r : Bytes) (t : Track) :
    (extractRoutingTrack bt r t).sends = t.sends := by
  simp only [extractRoutingTrack]
  repeat' split
  all_goals rfl

theorem mem_withNextPos :
    ∀ (l : List (Track × Nat)) (x : (Track × Nat) × Option Nat),
      x ∈ withNextPos l → x.1 ∈ l := by
  intro l
  induction l with
  | nil => intro x hx; simp [withNextPos] at hx
  | cons a rest ih =>
    intro x hx
    cases rest with
    | nil =>
      simp only [withNextPos, List.mem_singleton] at hx
      simp [hx]
    | cons b rest2 =>
      simp only [withNextPos] at hx
      rcases List.mem_cons.mp hx with h | h
      · subst h; simp
      · exact List.mem_cons_of_mem _ (ih x h)

theorem extractRouting_sendsNil (bt : List (Nat × String)) (data : Bytes)
    (pos : List (Track × Nat)) (h : ∀ tp ∈ pos, tp.1.sends = []) :
    ∀ tp ∈ extractRouting bt data pos, tp.1.sends = [] := by
  intro tp htp
  simp only [extractRouting] at htp
  obtain ⟨tpn, htpn, rfl⟩ := List.mem_map.mp htp
  show (extractRoutingTrack bt _ tpn.1.1).sends = []
  rw [extractRoutingTrack_sends]
  exact h tpn.1 (mem_sortByPos _ _ (mem_withNextPos _ tpn htpn))

theorem sendSlotsGo_spec (bt : List (Nat × String)) (sr : Bytes) (outs : List Nat) :
    ∀ (vols : List Nat) (acc : List SendSlot),
      acc.length ≤ 7 →
      (∀ s ∈ acc, ∃ uid, uid ≠ 0 ∧ List.lookup uid bt = some s.target_name) →
      (sendSlotsGo bt sr outs vols acc).length ≤ 8 ∧
        ∀ s ∈ sendSlotsGo bt sr outs vols acc,
          ∃ uid, uid ≠ 0 ∧ List.lookup uid bt = some s.target_name := by
  intro vols
  induction vols with
  | nil => intro acc hlen hres; exact ⟨Nat.le_trans hlen (by omega), hres⟩
  | cons volPos rest ih =>
    intro acc hlen hres
    simp only [sendSlotsGo]
    split
    · exact ih acc hlen hres
    · split
      · exact ih acc hlen hres
      · next nm hnm =>
        split
        · exact ih acc hlen hres
        · next huid =>
          split
          · constructor
            · simp only [List.length_append, List.length_singleton]
              omega
            · intro s hs
              rcases List.mem_append.mp hs with h1 | h1
              · exact hres s h1
              · rcases List.mem_singleton.mp h1 with rfl
                refine ⟨_, ?_, hnm⟩
                simpa using huid
          · next h8 =>
            refine ih _ ?_ ?_
            · simp only [List.length_append, List.length_singleton] at h8 ⊢
              omega
            · intro s hs
              rcases List.mem_append.mp hs with h1 | h1
              · exact hres s h1
              · rcases List.mem_singleton.mp h1 with rfl
                refine ⟨_, ?_, hnm⟩
                simpa using huid

theorem extractSendsTrack_resolved (bt : List (Nat × String)) (r : Bytes) (t : Track)
    (h : t.sends = []) : ResolvedSends bt (extractSendsTrack bt r t) := by
  simp only [extractSendsTrack]
  split
  · exact ⟨by simp [h], by simp [h]⟩
  · next sf heq =>
    rw [h]
    exact sendSlotsGo_spec bt ((r.drop sf).take 10240)
      (litPositions outputTag ((r.drop sf).take 10240))
      (litPositions volumeTag ((r.drop sf).take 10240)) [] (by simp) (by simp)

theorem extractSends_resolved (bt : List (Nat × String)) (data : Bytes)
    (pos : List (Track × Nat)) (h : ∀ tp ∈ pos, tp.1.sends = []) :
    ∀ tp ∈ extractSends bt data pos, ResolvedSends bt tp.1 := by
  intro tp htp
  simp only [extractSends] at htp
  obtain ⟨tpn, htpn, rfl⟩ := List.mem_map.mp htp
  exact extractSendsTrack_resolved bt _ _
    (h tpn.1 (mem_sortByPos _ _ (mem_withNextPos _ tpn htpn)))

theorem extractAudioPerTrack_sends (data : Bytes) (pos : List (Track × Nat)) :
    ∀ tp ∈ extractAudioPerTrack data pos, ∃ tq ∈ pos, tp.1.sends = tq.1.sends := by
  intro tp htp
  simp only [extractAudioPerTrack] at htp
  obtain ⟨tpn, htpn, rfl⟩ := List.mem_map.mp htp
  refine ⟨tpn.1, mem_sortByPos _ _ (mem_withNextPos _ tpn htpn), ?_⟩
  split
  · rfl
  · rfl

theorem lookup_mem {β : Type} :
    ∀ (l : List (String × β)) (k : String) (v : β),
      List.lookup k l = some v → (k, v) ∈ l := by
  intro l
  induction l with
  | nil => intro k v h; simp [List.lookup] at h
  | cons e rest ih =>
    intro k v h
    obtain ⟨e1, e2⟩ := e
    by_cases hk : (k == e1) = true
    · have hke : k = e1 := by simpa using hk
      subst hke
      simp [List.lookup_cons] at h
      simp [h]
    · have hkf : (k == e1) = false := by simpa using hk
      simp only [List.lookup_cons, hkf] at h
      exact List.mem_cons_of_mem _ (ih k v (by simpa using h))

theorem mem_dictSet {β : Type} (d : List (String × β)) (k : String) (v : β) :
    ∀ x ∈ dictSet d k v, x ∈ d ∨ x = (k, v) := by
  intro x hx
  simp only [dictSet] at hx
  split at hx
  · obtain ⟨y, hy, rfl⟩ := List.mem_map.mp hx
    by_cases hk : (y.1 == k) = true
    · right; simp [hk]
    · left; simpa [hk] using hy
  · rcases List.mem_append.mp hx with h1 | h1
    · left; exact h1
    · right; simpa using h1

theorem mergeDupGo_sends_pred (Q : List SendSlot → Prop) :
    ∀ (l : List Track) (best : List (String × Track)),
      (∀ t ∈ l, Q t.sends) → (∀ e ∈ best, Q e.2.sends) →
      ∀ e ∈ mergeDupGo l best, Q e.2.sends := by
  intro l
  induction l with
  | nil => intro best _ hb e he; exact hb e he
  | cons t rest ih =>
    intro best hl hb e he
    simp only [mergeDupGo] at he
    split at he
    · refine ih _ (fun u hu => hl u (by simp [hu])) ?_ e he
      intro f hf
      rcases List.mem_append.mp hf with h1 | h1
      · exact hb f h1
      · rcases List.mem_singleton.mp h1 with rfl
        exact hl t (by simp)
    · next ex hex =>
      have hQex : Q ex.sends := hb (t.name, ex) (lookup_mem _ _ _ hex)
      split at he
      · refine ih _ (fun u hu => hl u (by simp [hu])) ?_ e he
        intro f hf
        rcases mem_dictSet _ _ _ f hf with h1 | h1
        · exact hb f h1
        · rw [h1]; exact hl t (by simp)
      · split at he
        · refine ih _ (fun u hu => hl u (by simp [hu])) ?_ e he
          intro f hf
          rcases mem_dictSet _ _ _ f hf with h1 | h1
          · exact hb f h1
          · rw [h1]; exact hQex
        · exact ih _ (fun u hu => hl u (by simp [hu])) hb e he

theorem postprocess_sends_pred (Q : List SendSlot → Prop) (l : List Track)
    (h : ∀ t ∈ l, Q t.sends) : ∀ t ∈ postprocess l, Q t.sends := by
  intro t ht
  simp only [postprocess, reindexTracks] at ht
  obtain ⟨i, y, hy, rfl⟩ := mem_mapIdxGo _ _ _ _ ht
  show Q y.sends
  simp only [contentFiltered] at hy
  obtain ⟨z, hz, rfl⟩ := List.mem_map.mp (List.mem_of_mem_filter hy)
  rw [setHasContent_sends]
  simp only [filterArtifacts] at hz
  have hz1 := List.mem_of_mem_filter hz
  simp only [mergeDupTracks] at hz1
  obtain ⟨e, he, rfl⟩ := List.mem_map.mp hz1
  refine mergeDupGo_sends_pred Q (l.map dropSelfRefPlugins) [] ?_ (by simp) e he
  intro u hu
  obtain ⟨w, hw, rfl⟩ := List.mem_map.mp hu
  exact h w hw

-- ── C8 ───────────────────────────────────────────────────────────────────

/-- C8: every track of the final Project carries at most 8 send slots,
and every kept slot resolves through the bus UID table from a nonzero
identifier to its target name (slots with identifier zero or an
identifier absent from the table are discarded during extraction). -/
theorem c8_sends (stem : String) (data : Bytes) :
    ∀ t ∈ (parseCpr stem data).tracks, ResolvedSends (buildBusUidTable data) t := by
  intro t ht
  simp only [parseCpr] at ht
  have hnil0 := extractTracks_sendsNil data
  have hnil1 := extractPlugins_fst_sendsNil data _ hnil0
  have hnil2 := extractRouting_sendsNil (buildBusUidTable data) data _ hnil1
  have hres := extractSends_resolved (buildBusUidTable data) data _ hnil2
  have hinp : ∀ u ∈
      (extractAudioPerTrack data
        (extractSends (buildBusUidTable data) data
          (extractRouting (buildBusUidTable data) data
            (extractPlugins data (extractTracks data)).1))).map Prod.fst ++
        (extractPlugins data (extractTracks data)).2,
      u.sends.length ≤ 8 ∧ ∀ s ∈ u.sends, ∃ uid, uid ≠ 0 ∧
        List.lookup uid (buildBusUidTable data) = some s.target_name := by
    intro u hu
    rcases List.mem_append.mp hu with h1 | h1
    · obtain ⟨tp, htp, rfl⟩ := List.mem_map.mp h1
      obtain ⟨tq, htq, hsq⟩ := extractAudioPerTrack_sends data _ tp htp
      have hr := hres tq htq
      rw [hsq]
      exact ⟨hr.1, hr.2⟩
    · have hz := extractPlugins_snd_sendsNil data (extractTracks data) u h1
      rw [hz]
      exact ⟨by simp, by simp⟩
  exact postprocess_sends_pred
    (fun ss => ss.length ≤ 8 ∧ ∀ s ∈ ss, ∃ uid, uid ≠ 0 ∧
      List.lookup uid (buildBusUidTable data) = some s.target_name)
    _ hinp t ht

/-- Witness for C8: the only track of the synthesized-Master buffer has no
send slots, so both clauses hold there. -/
theorem c8_sends_witness :
    ((parseCpr "p" (ascii "Plugin Name" ++ [0] ++ ascii "CoolComp")).tracks.getD 0 {}).sends.length ≤ 8 ∧
    ∀ s ∈ ((parseCpr "p" (ascii "Plugin Name" ++ [0] ++ ascii "CoolComp")).tracks.getD 0 {}).sends,
      ∃ uid, uid ≠ 0 ∧
        List.lookup uid (buildBusUidTable (ascii "Plugin Name" ++ [0] ++ ascii "CoolComp")) =
          some s.target_name :=
  c8_sends "p" (ascii "Plugin Name" ++ [0] ++ ascii "CoolComp")
    ((parseCpr "p" (ascii "Plugin Name" ++ [0] ++ ascii "CoolComp")).tracks.getD 0 {})
    (by decide)


end Cpr
